import Mathlib

set_option linter.unusedVariables false

namespace Voxelle

/-!
Shallow embedding of the core of the voxelle repository.

Part 1 models the isnad projector (crates/isnad/src/lib.rs): JSON records,
the two-pass `fold` that projects the ledger and control logs into a Board,
and the `ack-directives` batch acknowledgement of crates/voxelle-board/src/main.rs.

Rust `HashMap` contents are modelled as association lists keyed by `String`
with lookup/insert having map semantics; the (randomized, per-map) iteration
order a Rust `HashMap` exposes when the code loops over it is modelled as an
explicit enumeration parameter, quantified over permutations of the table.

Part 2 (further below) models the signaling relay
(crates/voxelle-signal/src/main.rs).
-/

/-- JSON value, as far as the projector inspects it (serde_json::Value). -/
inductive J : Type where
  | null : J
  | bool (b : Bool) : J
  | num (n : Int) : J
  | str (s : String) : J
  | arr (elems : List J) : J
  | obj (fields : List (String × J)) : J

/-- A parsed JSON object: the record type both logs consist of. -/
abbrev Obj := List (String × J)

/-- Field access on a JSON object (serde_json `Map::get`). -/
def getV (o : Obj) (k : String) : Option J :=
  (o.find? (fun p => decide (p.1 = k))).map (fun p => p.2)

/-- Value::as_str : only a JSON string yields a value. -/
def asStr : Option J → Option String
  | some (J.str s) => some s
  | _ => none

/-- Value::as_i64 on a field. -/
def asI64 : Option J → Option Int
  | some (J.num n) => some n
  | _ => none

/-- rec.get(k).and_then(as_str). -/
def getStr (o : Obj) (k : String) : Option String :=
  asStr (getV o k)

/-- rec.get(k) as an object, when it is one. -/
def getObjField (o : Obj) (k : String) : Option Obj :=
  match getV o k with
  | some (J.obj m) => some m
  | _ => none

/-- Projector-internal card state (struct Card in isnad/src/lib.rs). -/
structure Card where
  task_id : String
  title : String
  status : String
  priority : String
  updated_at : String
  updated_seq : Int
  latest_snapshot_id : Option String
  provisional : Bool
deriving DecidableEq

/-- fn set_updated: bump the cursor when the event sequence is at least the card's. -/
def set_updated (c : Card) (ts : String) (seq : Int) : Card :=
  if c.updated_seq ≤ seq then
    { c with updated_seq := seq, updated_at := if ts = "" then c.updated_at else ts }
  else c

def STATUSES : List String := ["backlog", "next", "doing", "blocked", "done", "rejected"]

def PRIORITIES : List String := ["low", "medium", "high", "urgent"]

/-- fn is_status. -/
def is_status (s : String) : Bool := decide (s ∈ STATUSES)

/-- fn is_priority. -/
def is_priority (p : String) : Bool := decide (p ∈ PRIORITIES)

/-- fn priority_rank. -/
def priority_rank (p : String) : Int :=
  if p = "low" then 1
  else if p = "medium" then 2
  else if p = "high" then 3
  else if p = "urgent" then 4
  else 0

/-- Map-semantics lookup on an association list (HashMap::get). -/
def lookupA {κ α : Type} [DecidableEq κ] (l : List (κ × α)) (k : κ) : Option α :=
  (l.find? (fun p => decide (p.1 = k))).map (fun p => p.2)

/-- HashMap::contains_key. -/
def containsA {κ α : Type} [DecidableEq κ] (l : List (κ × α)) (k : κ) : Bool :=
  (lookupA l k).isSome

/-- HashMap::insert: replace the entry in place, or append a fresh one. -/
def insertA {κ α : Type} [DecidableEq κ] : List (κ × α) → κ → α → List (κ × α)
  | [], k, v => [(k, v)]
  | (k', v') :: rest, k, v =>
    if k' = k then (k, v) :: rest else (k', v') :: insertA rest k v

/-- Accumulator state of `fold`: the card table, the acknowledged-directive set,
the latest-ack cursors, and the unread-directive map built in the control pass. -/
structure FState where
  cards : List (String × Card)
  acked : List String
  lastAckId : Option String
  lastAckTs : Option String
  unread : List (String × List String)
  lastAckSeq : Int
deriving DecidableEq

def initFState : FState :=
  { cards := [], acked := [], lastAckId := none, lastAckTs := none,
    unread := [], lastAckSeq := 0 }

/-- Title chosen by the task_opened branch: `claim` (default "Untitled task"),
overridden by a non-empty `meta.title`. -/
def openedTitle (rec : Obj) : String :=
  let claimTitle := (getStr rec "claim").getD "Untitled task"
  match getObjField rec "meta" with
  | some m =>
    match getStr m "title" with
    | some mt => if mt = "" then claimTitle else mt
    | none => claimTitle
  | none => claimTitle

/-- One ledger record of the first pass of `fold` (lib.rs lines 246-319).
The sequence number is the 1-based position in the file (`_seq`). -/
def ledger_step (st : FState) (rec : Obj) (seq : Int) : FState :=
  let recType := (getStr rec "type").getD ""
  let ts := (getStr rec "ts").getD ""
  let taskId := getStr rec "task_id"
  if recType = "task_opened" then
    match taskId with
    | some t =>
      if t = "" then st
      else
        let card : Card :=
          { task_id := t, title := openedTitle rec, status := "backlog",
            priority := "medium", updated_at := "", updated_seq := 0,
            latest_snapshot_id := none, provisional := false }
        { st with cards := insertA st.cards t (set_updated card ts seq) }
    | none => st
  else if recType = "task_updated" then
    match taskId with
    | some t =>
      if t = "" then st
      else
        match lookupA st.cards t with
        | some card =>
          let card :=
            match getObjField rec "meta" with
            | some m =>
              match getStr m "title" with
              | some mt => if mt = "" then card else { card with title := mt }
              | none => card
            | none => card
          { st with cards := insertA st.cards t (set_updated card ts seq) }
        | none => st
    | none => st
  else if recType = "snapshot" then
    match taskId with
    | some t =>
      if t = "" then st
      else
        match lookupA st.cards t with
        | some card =>
          let card := { card with latest_snapshot_id := getStr rec "id" }
          { st with cards := insertA st.cards t (set_updated card ts seq) }
        | none => st
    | none => st
  else if recType = "ack_directive" then
    match getObjField rec "meta" with
    | some m =>
      match getStr m "directive_id" with
      | some did =>
        if did = "" then st
        else
          { st with acked := st.acked.insert did,
                    lastAckId := some did,
                    lastAckTs := if ts = "" then st.lastAckTs else some ts }
      | none => st
    | none => st
  else st

/-- Placeholder card inserted when a non-open_task directive references an
unknown task (lib.rs lines 369-378). -/
def placeholderCard (t : String) : Card :=
  { task_id := t, title := "(unopened task)", status := "backlog",
    priority := "medium", updated_at := "", updated_seq := 0,
    latest_snapshot_id := none, provisional := true }

/-- Default card created by an open_task directive for a new task
(lib.rs lines 337-346). -/
def openTaskDefault (t : String) (titleO : Option String) : Card :=
  { task_id := t, title := titleO.getD "Untitled task", status := "backlog",
    priority := "medium", updated_at := "", updated_seq := 0,
    latest_snapshot_id := none, provisional := true }

/-- The mutations the open_task branch applies to the (fresh or existing) entry
(lib.rs lines 348-364). -/
def openTaskApply (base : Card) (titleO statusO prioO : Option String)
    (ts : String) (seq : Int) : Card :=
  let c1 :=
    match titleO with
    | some ti =>
      if ti ≠ "" ∧ (base.title = "(unopened task)" ∨ base.title = "Untitled task") then
        { base with title := ti }
      else base
    | none => base
  let c2 :=
    match statusO with
    | some s => if is_status s then { c1 with status := s } else c1
    | none => c1
  let c3 :=
    match prioO with
    | some pv => if is_priority pv then { c2 with priority := pv } else c2
    | none => c2
  set_updated c3 ts seq

/-- The in-place mutation of an existing card by set_status / set_priority /
pause (lib.rs lines 384-408); every other directive type leaves it as is. -/
def directiveMutate (card : Card) (dType : String) (payload : Option Obj)
    (ts : String) (seq : Int) : Card :=
  if dType = "set_status" then
    match asStr (payload.bind (fun p => getV p "status")) with
    | some s => if is_status s then set_updated { card with status := s } ts seq else card
    | none => card
  else if dType = "set_priority" then
    match asStr (payload.bind (fun p => getV p "priority")) with
    | some pr => if is_priority pr then set_updated { card with priority := pr } ts seq else card
    | none => card
  else if dType = "pause" then
    set_updated { card with status := "blocked" } ts seq
  else card

/-- unread_directives.entry(t).or_default().push(i). -/
def pushUnread (u : List (String × List String)) (t i : String) :
    List (String × List String) :=
  match lookupA u t with
  | some l => insertA u t (l ++ [i])
  | none => u ++ [(t, [i])]

/-- The card-table effect of the open_task branch (lib.rs lines 329-365). -/
def openTaskCards (cards : List (String × Card)) (d : Obj) (ts : String) (seq : Int) :
    List (String × Card) :=
  match getStr d "task_id" with
  | some t =>
    if t = "" then cards
    else
      let payload := getObjField d "payload"
      let titleO := asStr (payload.bind (fun p => getV p "title"))
      let statusO := asStr (payload.bind (fun p => getV p "status"))
      let prioO := asStr (payload.bind (fun p => getV p "priority"))
      let base := (lookupA cards t).getD (openTaskDefault t titleO)
      insertA cards t (openTaskApply base titleO statusO prioO ts seq)
  | none => cards

/-- The card-table effect of the placeholder branch for non-open_task
directives (lib.rs lines 367-380). -/
def placeholderCards (cards : List (String × Card)) (d : Obj) : List (String × Card) :=
  match getStr d "task_id" with
  | some t =>
    if t = "" then cards
    else if containsA cards t then cards
    else insertA cards t (placeholderCard t)
  | none => cards

/-- The tail of a control step (lib.rs lines 382-421), once the card table
`cards2` after the open_task and placeholder branches is known: the in-place
mutation of the referenced existing card and the acknowledgement
bookkeeping. -/
def controlTail (st : FState) (d : Obj) (seq : Int) (cards2 : List (String × Card)) : FState :=
  match getStr d "task_id" with
  | some t =>
    if t = "" then { st with cards := cards2 }
    else
      match lookupA cards2 t with
      | none => { st with cards := cards2 }
      | some card =>
        let cards3 := insertA cards2 t (directiveMutate card ((getStr d "type").getD "")
          (getObjField d "payload") ((getStr d "ts").getD "") seq)
        match getStr d "id" with
        | some i =>
          if i = "" then { st with cards := cards3 }
          else if i ∈ st.acked then
            { st with cards := cards3, lastAckSeq := max st.lastAckSeq seq }
          else
            { st with cards := cards3, unread := pushUnread st.unread t i }
        | none => { st with cards := cards3 }
  | none => { st with cards := cards2 }

/-- One control record of the second pass of `fold` (lib.rs lines 321-422).
The open_task branch runs first, then (for other types) the placeholder
upsert, then the in-place mutation and acknowledgement bookkeeping on the
referenced card; `acked` is never changed in this pass. -/
def control_step (st : FState) (d : Obj) (seq : Int) : FState :=
  let dType := (getStr d "type").getD ""
  let cards1 := if dType = "open_task" then
    openTaskCards st.cards d ((getStr d "ts").getD "") seq else st.cards
  let cards2 := if dType ≠ "open_task" then placeholderCards cards1 d else cards1
  controlTail st d seq cards2

/-- Run a pass over a log, numbering records from `seq` upwards. -/
def runSteps (step : FState → Obj → Int → FState) : FState → Int → List Obj → FState
  | st, _, [] => st
  | st, seq, r :: rs => runSteps step (step st r seq) (seq + 1) rs

/-- The deterministic part of `fold`: both passes, before column assembly.
Sequence numbers restart at 1 for each log, as read_jsonl_with_seq assigns them. -/
def cardTable (ledger control : List Obj) : FState :=
  runSteps control_step (runSteps ledger_step initFState 1 ledger) 1 control

/-- Serialized card (struct CardOut). -/
structure CardOut where
  task_id : String
  title : String
  status : String
  priority : String
  updated_at : String
  updated_seq : Int
  latest_snapshot_id : Option String
  unread_directive_count : Nat
  provisional : Bool
deriving DecidableEq

/-- CardOut from a table entry; the unread count is looked up under the map key
(lib.rs lines 428-440). -/
def toCardOut (unread : List (String × List String)) (t : String) (c : Card) : CardOut :=
  { task_id := c.task_id, title := c.title, status := c.status,
    priority := c.priority, updated_at := c.updated_at,
    updated_seq := c.updated_seq, latest_snapshot_id := c.latest_snapshot_id,
    unread_directive_count := ((lookupA unread t).getD []).length,
    provisional := c.provisional }

/-- The sort key comparison of the column sort (lib.rs lines 449-453):
`a` must come strictly before `b` when its (priority rank, updated_seq)
is lexicographically greater. -/
def cmpBefore (a b : CardOut) : Bool :=
  decide (priority_rank b.priority < priority_rank a.priority) ||
    (decide (priority_rank a.priority = priority_rank b.priority) &&
      decide (b.updated_seq < a.updated_seq))

/-- Stable insertion into a column sorted by `cmpBefore`: `x` is placed after
every element strictly before it, and before the first tie, preserving the
relative order of ties of Vec::sort_by (which is a stable sort). -/
def insSorted (x : CardOut) : List CardOut → List CardOut
  | [] => [x]
  | y :: l => if cmpBefore y x then y :: insSorted x l else x :: y :: l

/-- Stable sort of one column, the embedding of `col.sort_by(...)`. -/
def insSort : List CardOut → List CardOut
  | [] => []
  | x :: l => insSorted x (insSort l)

/-- The Board returned by `fold` (struct Board). `columns`, `cards` and
`unread_directives` are HashMaps in the source; they are association lists
here, compared through `lookupA` where map equality is meant. -/
structure Board where
  generated_at : String
  columns : List (String × List CardOut)
  cards : List (String × CardOut)
  unread_directives : List (String × List String)
  last_ack_directive_id : Option String
  last_ack_directive_ts : Option String
  last_ack_control_seq : Int
deriving DecidableEq

/-- Column assembly and serialization (lib.rs lines 424-465). `enum` is the
order in which the Rust `for (task_id, card) in cards` loop visits the card
HashMap: an arbitrary permutation of the table. -/
def mkBoard (st : FState) (enum : List (String × Card)) (now : String) : Board :=
  let outs := enum.map (fun p => (p.1, toCardOut st.unread p.1 p.2))
  { generated_at := now,
    columns := STATUSES.map (fun s =>
      (s, insSort (outs.filterMap (fun p => if p.2.status = s then some p.2 else none)))),
    cards := outs,
    unread_directives := st.unread,
    last_ack_directive_id := st.lastAckId,
    last_ack_directive_ts := st.lastAckTs,
    last_ack_control_seq := st.lastAckSeq }

/-- fold, parameterized by the card-map iteration order and the clock. -/
def foldR (ledger control : List Obj) (enum : List (String × Card)) (now : String) : Board :=
  mkBoard (cardTable ledger control) enum now

/-- One record's contribution to read_acknowledged_directive_ids. -/
def ackIdStep (acc : List String) (rec : Obj) : List String :=
  if (getStr rec "type").getD "" = "ack_directive" then
    match getObjField rec "meta" with
    | some m =>
      match getStr m "directive_id" with
      | some did => if did = "" then acc else acc.insert did
      | none => acc
    | none => acc
  else acc

/-- read_acknowledged_directive_ids of voxelle-board/src/main.rs. -/
def read_acknowledged_directive_ids (ledger : List Obj) : List String :=
  ledger.foldl ackIdStep []

/-- Selection loop of Command::AckDirectives (main.rs lines 470-482): keep the
control records with a fresh non-empty id, stopping after `limit` when positive. -/
def selectToAck : List Obj → List String → Nat → Nat → List Obj
  | [], _, _, _ => []
  | d :: ds, acked, limit, count =>
    let did := (getStr d "id").getD ""
    if did = "" ∨ did ∈ acked then selectToAck ds acked limit count
    else
      d :: (if 0 < limit ∧ limit ≤ count + 1 then [] else selectToAck ds acked limit (count + 1))

/-- The acknowledgement receipt appended per directive
(main.rs lines 489-510). `rid`, `ts` and `actor` stand for new_id, utc_now
and the --actor flag. -/
def mk_receipt (d : Obj) (rid ts actor : String) : Obj :=
  let did := (getStr d "id").getD ""
  [("id", J.str rid),
   ("ts", J.str ts),
   ("type", J.str "ack_directive"),
   ("task_id", (getV d "task_id").getD J.null),
   ("claim", J.str "Acknowledged directive."),
   ("action", J.str "Recorded receipt of human intent."),
   ("evidence", J.obj [("control_id", J.str did)]),
   ("next_decision", J.str "continue"),
   ("meta", J.obj [("directive_id", J.str did), ("ack_actor", J.str actor)])]

/-- One receipt per selected directive, ids drawn from `idGen` in order. -/
def mk_receipts : List Obj → Nat → String → String → (Nat → String) → List Obj
  | [], _, _, _, _ => []
  | d :: ds, n, actor, nowTs, idGen =>
    mk_receipt d (idGen n) nowTs actor :: mk_receipts ds (n + 1) actor nowTs idGen

/-- The records Command::AckDirectives appends to the ledger when not a dry
run; `idGen` and `nowTs` abstract the generated ids and the clock. -/
def ack_directives (ledger control : List Obj) (limit : Nat)
    (actor nowTs : String) (idGen : Nat → String) : List Obj :=
  let acked := read_acknowledged_directive_ids ledger
  mk_receipts (selectToAck control acked limit 0) 0 actor nowTs idGen

/-!
Part 2: the signaling relay (crates/voxelle-signal/src/main.rs).

Client-visible strings (sids, SDP blobs) are modelled as `List Char`, with the
UTF-8 byte length made explicit, since validate_sid trims and measures them
the way Rust `str` does. The per-connection receive loop body of handle_socket
becomes `connStep`; whether ≥ 1 s elapsed since the last rate refill, whether a
subscriber channel accepts a send, and the result of JSON parsing are oracle
inputs carried by the frame, abstracting time, channel state and serde.
-/

def MAX_WS_TEXT_BYTES : Nat := 64 * 1024

def MAX_SID_CHARS : Nat := 128

def MAX_SDP_CODE_CHARS : Nat := 128 * 1024

def MAX_SESSIONS : Nat := 10000

def MAX_CLIENTS_PER_SESSION : Nat := 16

/-- Unicode White_Space, the set Rust char::is_whitespace tests. -/
def isRustWhitespace (c : Char) : Bool :=
  let n := c.toNat
  decide (9 ≤ n ∧ n ≤ 13) || decide (n = 32) || decide (n = 133) || decide (n = 160) ||
    decide (n = 5760) || decide (8192 ≤ n ∧ n ≤ 8202) || decide (n = 8232) ||
    decide (n = 8233) || decide (n = 8239) || decide (n = 8287) || decide (n = 12288)

/-- str::trim: strip leading and trailing whitespace. -/
def rustTrim (s : List Char) : List Char :=
  ((s.dropWhile isRustWhitespace).reverse.dropWhile isRustWhitespace).reverse

/-- UTF-8 size of one char, what str::len sums. -/
def utf8Len (c : Char) : Nat :=
  if c.toNat < 128 then 1
  else if c.toNat < 2048 then 2
  else if c.toNat < 65536 then 3
  else 4

/-- str::len: the UTF-8 byte length. -/
def byteLen (s : List Char) : Nat :=
  (s.map utf8Len).sum

/-- char::is_ascii_hexdigit. -/
def isAsciiHexdigit (c : Char) : Bool :=
  decide (48 ≤ c.toNat ∧ c.toNat ≤ 57) || decide (65 ≤ c.toNat ∧ c.toNat ≤ 70) ||
    decide (97 ≤ c.toNat ∧ c.toNat ≤ 102)

/-- fn validate_sid (main.rs lines 98-107), as the Bool "accepted"; the
checks all run on the trimmed sid `s`. -/
def validate_sid (sid : List Char) : Bool :=
  if (rustTrim sid).isEmpty || decide (MAX_SID_CHARS < byteLen (rustTrim sid)) then false
  else if !((rustTrim sid).all isAsciiHexdigit) then false
  else true

/-- fn validate_sdp_code (main.rs lines 109-114), as the Bool "accepted". -/
def validate_sdp_code (s : List Char) : Bool :=
  if s.isEmpty || decide (MAX_SDP_CODE_CHARS < byteLen s) then false else true

/-- A relay session (struct Session). Subscriber send-handles are identified by
their connection id. -/
structure Sess where
  created_at : Nat
  offer : Option (List Char)
  answer : Option (List Char)
  clients : List Nat
deriving DecidableEq

def freshSess (now : Nat) : Sess :=
  { created_at := now, offer := none, answer := none, clients := [] }

/-- Parsed ClientMsg (enum ClientMsg); v is the version field. -/
inductive CMsg : Type where
  | join (v : Nat) (sid : List Char) : CMsg
  | set_offer (v : Nat) (sid offer : List Char) : CMsg
  | set_answer (v : Nat) (sid answer : List Char) : CMsg
  | get_state (v : Nat) (sid : List Char) : CMsg
deriving DecidableEq

/-- Messages the relay enqueues on this connection's own channel
(enum ServerMsg); broadcasts to other subscribers are not replies. -/
inductive SMsg : Type where
  | hello (v : Nat) : SMsg
  | stateMsg (v : Nat) (sid : List Char) (has_offer has_answer : Bool)
      (offer answer : Option (List Char)) : SMsg
  | errorMsg (v : Nat) (error : String) : SMsg
deriving DecidableEq

/-- Per-connection state of the receive loop: joined_sid and the rate budget. -/
structure ConnSt where
  joined_sid : Option (List Char)
  rate_budget : Int
deriving DecidableEq

def initConnSt : ConnSt := { joined_sid := none, rate_budget := 40 }

/-- One received WebSocket frame, with the oracles the loop body consults:
`isText` (Message::Text or not), `len` (text byte length), `refill` (≥ 1 s
elapsed since last_rate), `parsed` (serde result), `now` (SystemTime::now for
created_at), and `sendOk` (whether a subscriber channel accepts the send:
its receiver task is still alive). -/
structure Frame where
  isText : Bool
  len : Nat
  refill : Bool
  parsed : Option CMsg
  now : Nat
  sendOk : Nat → Bool

abbrev Sessions := List (List Char × Sess)

/-- Map lookup/insert on the sessions HashMap, keyed by sid. -/
def lookupS (l : Sessions) (k : List Char) : Option Sess := lookupA l k

def containsS (l : Sessions) (k : List Char) : Bool := containsA l k

def insertS (l : Sessions) (k : List Char) (v : Sess) : Sessions := insertA l k v

/-- Result of one loop iteration: this connection's replies, whether the loop
breaks, and the updated connection and shared state. -/
structure StepOut where
  replies : List SMsg
  brk : Bool
  conn : ConnSt
  sessions : Sessions

/-- The join arm (main.rs lines 178-210). -/
def stepJoin (sessions : Sessions) (cs : ConnSt) (c : Nat) (f : Frame)
    (sid : List Char) : List SMsg × ConnSt × Sessions :=
  if validate_sid sid = false then ([SMsg.errorMsg 1 "invalid sid"], cs, sessions)
  else
    let cs := { cs with joined_sid := some sid }
    if MAX_SESSIONS ≤ sessions.length ∧ ¬ containsS sessions sid then
      ([SMsg.errorMsg 1 "server busy"], cs, sessions)
    else
      let entry := (lookupS sessions sid).getD (freshSess f.now)
      let sessions := insertS sessions sid entry
      if MAX_CLIENTS_PER_SESSION ≤ entry.clients.length then
        ([SMsg.errorMsg 1 "session full"], cs, sessions)
      else
        let entry := { entry with clients := entry.clients ++ [c] }
        let sessions := insertS sessions sid entry
        ([SMsg.stateMsg 1 sid entry.offer.isSome entry.answer.isSome entry.offer entry.answer],
         cs, sessions)

/-- The set_offer arm (main.rs lines 211-241). The broadcast enqueue keeps the
subscribers whose channel accepted the message. -/
def stepSetOffer (sessions : Sessions) (cs : ConnSt) (c : Nat) (f : Frame)
    (sid offer : List Char) : List SMsg × ConnSt × Sessions :=
  if validate_sid sid = false then ([SMsg.errorMsg 1 "invalid sid"], cs, sessions)
  else if cs.joined_sid ≠ some sid then ([SMsg.errorMsg 1 "join required"], cs, sessions)
  else if validate_sdp_code offer = false then
    ([SMsg.errorMsg 1 "offer too large"], cs, sessions)
  else
    let entry := (lookupS sessions sid).getD (freshSess f.now)
    let entry := { entry with offer := some offer }
    let entry := { entry with clients := entry.clients.filter f.sendOk }
    ([], cs, insertS sessions sid entry)

/-- The set_answer arm (main.rs lines 242-272). -/
def stepSetAnswer (sessions : Sessions) (cs : ConnSt) (c : Nat) (f : Frame)
    (sid answer : List Char) : List SMsg × ConnSt × Sessions :=
  if validate_sid sid = false then ([SMsg.errorMsg 1 "invalid sid"], cs, sessions)
  else if cs.joined_sid ≠ some sid then ([SMsg.errorMsg 1 "join required"], cs, sessions)
  else if validate_sdp_code answer = false then
    ([SMsg.errorMsg 1 "answer too large"], cs, sessions)
  else
    let entry := (lookupS sessions sid).getD (freshSess f.now)
    let entry := { entry with answer := some answer }
    let entry := { entry with clients := entry.clients.filter f.sendOk }
    ([], cs, insertS sessions sid entry)

/-- The get_state arm (main.rs lines 273-295). -/
def stepGetState (sessions : Sessions) (cs : ConnSt) (c : Nat) (f : Frame)
    (sid : List Char) : List SMsg × ConnSt × Sessions :=
  if validate_sid sid = false then ([SMsg.errorMsg 1 "invalid sid"], cs, sessions)
  else if cs.joined_sid ≠ some sid then ([SMsg.errorMsg 1 "join required"], cs, sessions)
  else
    match lookupS sessions sid with
    | none => ([SMsg.errorMsg 1 "unknown sid"], cs, sessions)
    | some entry =>
      ([SMsg.stateMsg 1 sid entry.offer.isSome entry.answer.isSome entry.offer entry.answer],
       cs, sessions)

/-- Command dispatch (main.rs lines 177-299): any version other than 1 falls
through to the unsupported-version reply. -/
def dispatch (sessions : Sessions) (cs : ConnSt) (c : Nat) (f : Frame)
    (cmd : CMsg) : List SMsg × ConnSt × Sessions :=
  match cmd with
  | CMsg.join v sid =>
    if v = 1 then stepJoin sessions cs c f sid
    else ([SMsg.errorMsg 1 "unsupported version"], cs, sessions)
  | CMsg.set_offer v sid offer =>
    if v = 1 then stepSetOffer sessions cs c f sid offer
    else ([SMsg.errorMsg 1 "unsupported version"], cs, sessions)
  | CMsg.set_answer v sid answer =>
    if v = 1 then stepSetAnswer sessions cs c f sid answer
    else ([SMsg.errorMsg 1 "unsupported version"], cs, sessions)
  | CMsg.get_state v sid =>
    if v = 1 then stepGetState sessions cs c f sid
    else ([SMsg.errorMsg 1 "unsupported version"], cs, sessions)

/-- The rate limiter and parse stage of the loop body (main.rs lines 158-175),
after the size gate. -/
def connStepSmall (sessions : Sessions) (cs : ConnSt) (c : Nat) (f : Frame) :
    List SMsg × ConnSt × Sessions :=
  let budget := (if f.refill then 40 else cs.rate_budget) - 1
  let cs := { cs with rate_budget := budget }
  if budget < 0 then ([SMsg.errorMsg 1 "rate limited"], cs, sessions)
  else
    match f.parsed with
    | none => ([SMsg.errorMsg 1 "invalid json"], cs, sessions)
    | some cmd => dispatch sessions cs c f cmd

/-- One iteration of the receive loop of handle_socket (main.rs lines 151-300):
non-text frames are skipped, an oversized text frame replies once and breaks,
everything else continues. -/
def connStep (sessions : Sessions) (cs : ConnSt) (c : Nat) (f : Frame) : StepOut :=
  if f.isText = false then { replies := [], brk := false, conn := cs, sessions := sessions }
  else if MAX_WS_TEXT_BYTES < f.len then
    { replies := [SMsg.errorMsg 1 "message too large"], brk := true, conn := cs,
      sessions := sessions }
  else
    let r := connStepSmall sessions cs c f
    { replies := r.1, brk := false, conn := r.2.1, sessions := r.2.2 }

/-- Global relay state: the shared sessions map and the per-connection states
of the live receive tasks. -/
structure RState where
  sessions : Sessions
  conns : List (Nat × ConnSt)

/-- Lookup / update of a connection's loop state. -/
def lookupC (l : List (Nat × ConnSt)) (c : Nat) : Option ConnSt := lookupA l c

def updateC (l : List (Nat × ConnSt)) (c : Nat) (v : ConnSt) : List (Nat × ConnSt) :=
  l.map (fun p => if p.1 = c then (c, v) else p)

def removeC (l : List (Nat × ConnSt)) (c : Nat) : List (Nat × ConnSt) :=
  l.filter (fun p => decide (p.1 ≠ c))

/-- End of handle_socket (main.rs lines 302-308): the connection is gone and
its joined session drops the subscribers whose channel reports closed, which
the `notClosed` oracle abstracts. -/
def endConn (s : RState) (c : Nat) (notClosed : Nat → Bool) : RState :=
  let joined := (lookupC s.conns c).bind (fun cs => cs.joined_sid)
  let conns := removeC s.conns c
  match joined with
  | some sid =>
    match lookupS s.sessions sid with
    | some entry =>
      { sessions := insertS s.sessions sid { entry with clients := entry.clients.filter notClosed },
        conns := conns }
    | none => { sessions := s.sessions, conns := conns }
  | none => { sessions := s.sessions, conns := conns }

/-- Events of the relay transition system: a websocket upgrade, one frame
handled by a connection's loop, a disconnect, and the two background purges
(main.rs lines 116-128 and 328-339). -/
inductive REvent : Type where
  | connect (c : Nat) : REvent
  | frame (c : Nat) (f : Frame) : REvent
  | disconnect (c : Nat) (notClosed : Nat → Bool) : REvent
  | purgeExpired (now ttl : Nat) : REvent
  | purgeClosed (notClosed : Nat → Bool) : REvent

/-- One global transition. A frame addressed to a dead connection is a no-op;
a frame whose handling breaks ends that connection. -/
def applyEvent (s : RState) : REvent → RState
  | REvent.connect c =>
    if (lookupC s.conns c).isSome then s
    else { s with conns := s.conns ++ [(c, initConnSt)] }
  | REvent.frame c f =>
    match lookupC s.conns c with
    | none => s
    | some cs =>
      let out := connStep s.sessions cs c f
      let s' : RState := { sessions := out.sessions, conns := updateC s.conns c out.conn }
      if out.brk then endConn s' c f.sendOk else s'
  | REvent.disconnect c notClosed => endConn s c notClosed
  | REvent.purgeExpired now ttl =>
    { s with sessions := s.sessions.filter (fun p => decide (now - p.2.created_at ≤ ttl)) }
  | REvent.purgeClosed notClosed =>
    { s with sessions := s.sessions.map (fun p => (p.1, { p.2 with clients := p.2.clients.filter notClosed })) }

/-- The relay starts with no sessions and no connections. -/
def initRState : RState := { sessions := [], conns := [] }

/-- Reachable relay states. -/
inductive Reach : RState → Prop where
  | init : Reach initRState
  | step (s : RState) (e : REvent) (h : Reach s) : Reach (applyEvent s e)

/-!
Definitions supporting the claim statements: claim-side quantities, the
sortedness predicate of a column, and the concrete states used by the
counterexamples.
-/

/-- meta.directive_id of a ledger record, as a string. -/
def meta_directive_id (rec : Obj) : Option String :=
  (getObjField rec "meta").bind (fun m => getStr m "directive_id")

/-- Maximum sequence number among control records carrying a non-empty id
(0 when there are none), numbering from `seq`: the quantity named by the claim
about ack-directives followed by fold. -/
def idMax : List Obj → Int → Int
  | [], _ => 0
  | d :: ds, seq =>
    let m := idMax ds (seq + 1)
    if (getStr d "id").getD "" ≠ "" then max seq m else m

/-- Maximum sequence number among control records carrying both a non-empty id
and a non-empty task_id (0 when there are none), numbering from `seq`. -/
def ackableMax : List Obj → Int → Int
  | [], _ => 0
  | d :: ds, seq =>
    let m := ackableMax ds (seq + 1)
    if (getStr d "id").getD "" ≠ "" ∧ (getStr d "task_id").getD "" ≠ "" then max seq m else m

/-- No two entries of an association list share a key. -/
def keysNodup {κ α : Type} (l : List (κ × α)) : Prop :=
  (l.map Prod.fst).Nodup

/-- A card whose status and priority are among the known enum values. -/
def goodCard (c : Card) : Prop :=
  is_status c.status = true ∧ is_priority c.priority = true

/-- A column is ordered when no card is strictly before one of its
predecessors under the (priority rank, updated_seq) descending key. -/
def colOrdered (l : List CardOut) : Prop :=
  l.Pairwise (fun a b => cmpBefore b a = false)

/-- One lower-case hex digit. -/
def hexChar (d : Nat) : Char :=
  Char.ofNat (if d < 10 then 48 + d else 87 + d)

/-- The sid field of a parsed client message. -/
def sidOfCMsg : CMsg → List Char
  | CMsg.join _ sid => sid
  | CMsg.set_offer _ sid _ => sid
  | CMsg.set_answer _ sid _ => sid
  | CMsg.get_state _ sid => sid

/-- The version field of a parsed client message. -/
def versionOfCMsg : CMsg → Nat
  | CMsg.join v _ => v
  | CMsg.set_offer v _ _ => v
  | CMsg.set_answer v _ _ => v
  | CMsg.get_state v _ => v

/-- The n-th session id used in the reachability construction: a lower-case
hex string distinct for distinct n, accepted by validate_sid. -/
def mkSid (n : Nat) : List Char :=
  'a' :: (Nat.digits 16 n).map hexChar

/-- The session produced by a successful join of connection 0 at time 0. -/
def joinedSess : Sess :=
  { created_at := 0, offer := none, answer := none, clients := [0] }

/-- The relay state after connection 0 has joined sids mkSid 0 .. mkSid (n-1),
one frame per sid, each frame refilling the rate budget. -/
def mkRelayState (n : Nat) : RState :=
  { sessions := (List.range n).map (fun i => (mkSid i, joinedSess)),
    conns := [(0, { joined_sid := if n = 0 then none else some (mkSid (n - 1)),
                    rate_budget := if n = 0 then 40 else 39 })] }

/-- A frame carrying a join of the n-th sid. -/
def joinFrame (n : Nat) : Frame :=
  { isText := true, len := 0, refill := true, parsed := some (CMsg.join 1 (mkSid n)),
    now := 0, sendOk := fun _ => true }

/-- A frame carrying a set_offer for the n-th sid. -/
def offerFrame (n : Nat) : Frame :=
  { isText := true, len := 0, refill := true,
    parsed := some (CMsg.set_offer 1 (mkSid n) ['x']), now := 0, sendOk := fun _ => true }

/-- Every session's subscriber list respects the per-session cap. -/
def SubInv (s : RState) : Prop :=
  ∀ p ∈ s.sessions, p.2.clients.length ≤ MAX_CLIENTS_PER_SESSION

/-- The state after a join of the fresh sid mkSid MAX_SESSIONS hits the
session-count cap: the join is refused as busy, the sessions map is unchanged,
but joined_sid now holds the fresh sid. -/
def busyState : RState :=
  { sessions := (mkRelayState MAX_SESSIONS).sessions,
    conns := [(0, { joined_sid := some (mkSid MAX_SESSIONS), rate_budget := 39 })] }

/-- After 10000 sessions exist, a join of a fresh sid is refused (server busy)
but still records joined_sid, and the following set_offer creates the
10001-st session: the state this produces. -/
def overCapState : RState :=
  applyEvent (applyEvent (mkRelayState MAX_SESSIONS) (REvent.frame 0 (joinFrame MAX_SESSIONS)))
    (REvent.frame 0 (offerFrame MAX_SESSIONS))

/-! Basic lemmas about the association-list map operations. -/

theorem lookupA_nil {κ α : Type} [DecidableEq κ] (k : κ) :
    lookupA ([] : List (κ × α)) k = none := rfl

theorem lookupA_cons {κ α : Type} [DecidableEq κ] (k' : κ) (v' : α) (l : List (κ × α)) (k : κ) :
    lookupA ((k', v') :: l) k = if k' = k then some v' else lookupA l k := by
  by_cases h : k' = k
  · simp [lookupA, List.find?_cons_of_pos, h]
  · simp only [lookupA, if_neg h]
    rw [List.find?_cons_of_neg]
    simp [h]

theorem lookupA_insertA_self {κ α : Type} [DecidableEq κ] (l : List (κ × α)) (k : κ) (v : α) :
    lookupA (insertA l k v) k = some v := by
  induction l with
  | nil => simp [insertA, lookupA_cons]
  | cons p rest ih =>
    obtain ⟨k', v'⟩ := p
    by_cases h : k' = k
    · simp [insertA, h, lookupA_cons]
    · simp [insertA, h, lookupA_cons, ih]

theorem lookupA_insertA_ne {κ α : Type} [DecidableEq κ] (l : List (κ × α)) (k k' : κ) (v : α)
    (h : k' ≠ k) : lookupA (insertA l k v) k' = lookupA l k' := by
  induction l with
  | nil => simp [insertA, lookupA_cons, lookupA_nil, Ne.symm h]
  | cons p rest ih =>
    obtain ⟨k₀, v₀⟩ := p
    by_cases h₀ : k₀ = k
    · subst h₀
      simp [insertA, lookupA_cons, Ne.symm h]
    · simp [insertA, h₀, lookupA_cons, ih]

theorem insertA_lookup_eq_self {κ α : Type} [DecidableEq κ] (l : List (κ × α)) (k : κ) (v : α)
    (h : lookupA l k = some v) : insertA l k v = l := by
  induction l with
  | nil => simp [lookupA_nil] at h
  | cons p rest ih =>
    obtain ⟨k₀, v₀⟩ := p
    rw [lookupA_cons] at h
    by_cases h₀ : k₀ = k
    · subst h₀
      simp only [if_pos rfl] at h
      cases h
      simp [insertA]
    · simp only [if_neg h₀] at h
      simp [insertA, h₀, ih h]

theorem insertA_absent {κ α : Type} [DecidableEq κ] (l : List (κ × α)) (k : κ) (v : α)
    (h : lookupA l k = none) : insertA l k v = l ++ [(k, v)] := by
  induction l with
  | nil => simp [insertA]
  | cons p rest ih =>
    obtain ⟨k₀, v₀⟩ := p
    rw [lookupA_cons] at h
    by_cases h₀ : k₀ = k
    · simp [if_pos h₀] at h
    · simp only [if_neg h₀] at h
      simp [insertA, h₀, ih h]

theorem mem_insertA {κ α : Type} [DecidableEq κ] {l : List (κ × α)} {k : κ} {v : α}
    {p : κ × α} (h : p ∈ insertA l k v) : p = (k, v) ∨ p ∈ l := by
  induction l with
  | nil => simpa [insertA] using h
  | cons q rest ih =>
    obtain ⟨k₀, v₀⟩ := q
    by_cases h₀ : k₀ = k
    · simp only [insertA, if_pos h₀, List.mem_cons] at h
      rcases h with h | h
      · exact Or.inl h
      · exact Or.inr (List.mem_cons_of_mem _ h)
    · simp only [insertA, if_neg h₀, List.mem_cons] at h
      rcases h with h | h
      · exact Or.inr (by simp [h])
      · rcases ih h with h' | h'
        · exact Or.inl h'
        · exact Or.inr (List.mem_cons_of_mem _ h')

theorem keys_insertA_contains {κ α : Type} [DecidableEq κ] (l : List (κ × α)) (k : κ) (v : α)
    (h : containsA l k = true) : (insertA l k v).map Prod.fst = l.map Prod.fst := by
  induction l with
  | nil => simp [containsA, lookupA_nil] at h
  | cons p rest ih =>
    obtain ⟨k₀, v₀⟩ := p
    by_cases h₀ : k₀ = k
    · simp [insertA, h₀]
    · simp only [containsA, lookupA_cons, if_neg h₀] at h
      simp [insertA, h₀, ih h]

theorem keys_insertA_absent {κ α : Type} [DecidableEq κ] (l : List (κ × α)) (k : κ) (v : α)
    (h : containsA l k = false) : (insertA l k v).map Prod.fst = l.map Prod.fst ++ [k] := by
  have h' : lookupA l k = none := by
    cases hl : lookupA l k
    · rfl
    · simp [containsA, hl] at h
  rw [insertA_absent l k v h']
  simp

theorem lookupA_eq_none_iff {κ α : Type} [DecidableEq κ] (l : List (κ × α)) (k : κ) :
    lookupA l k = none ↔ ∀ p ∈ l, p.1 ≠ k := by
  constructor
  · intro h p hp
    simp only [lookupA, Option.map_eq_none'] at h
    rw [List.find?_eq_none] at h
    intro hk
    exact absurd (by simpa using h p hp) (by simp [hk])
  · intro h
    simp only [lookupA, Option.map_eq_none']
    rw [List.find?_eq_none]
    intro p hp
    simp [h p hp]

theorem keysNodup_insertA {κ α : Type} [DecidableEq κ] (l : List (κ × α)) (k : κ) (v : α)
    (h : keysNodup l) : keysNodup (insertA l k v) := by
  unfold keysNodup at h ⊢
  cases hc : containsA l k
  · rw [keys_insertA_absent l k v hc]
    rw [List.nodup_append]
    refine ⟨h, List.nodup_singleton k, ?_⟩
    intro a ha hb
    simp only [List.mem_singleton] at hb
    subst hb
    obtain ⟨p, hp, hpk⟩ := List.mem_map.mp ha
    have hnone : lookupA l a = none := by
      cases hl : lookupA l a
      · rfl
      · rw [containsA, hl] at hc
        simp at hc
    exact absurd hpk ((lookupA_eq_none_iff l a).mp hnone p hp)
  · rw [keys_insertA_contains l k v hc]
    exact h

theorem mem_of_lookupA {κ α : Type} [DecidableEq κ] {l : List (κ × α)} {k : κ} {v : α}
    (h : lookupA l k = some v) : (k, v) ∈ l := by
  simp only [lookupA, Option.map_eq_some'] at h
  obtain ⟨p, hp, hv⟩ := h
  have h1 := List.mem_of_find?_eq_some hp
  have h2 := List.find?_some hp
  simp only [decide_eq_true_eq] at h2
  obtain ⟨k₀, v₀⟩ := p
  cases h2
  cases hv
  exact h1

theorem lookupA_perm {κ α : Type} [DecidableEq κ] {l1 l2 : List (κ × α)}
    (h : l1.Perm l2) (hn : keysNodup l1) (k : κ) : lookupA l1 k = lookupA l2 k := by
  induction h with
  | nil => rfl
  | cons x h ih =>
    obtain ⟨k₀, v₀⟩ := x
    rw [lookupA_cons, lookupA_cons]
    unfold keysNodup at hn
    simp only [List.map_cons, List.nodup_cons] at hn
    by_cases hk : k₀ = k
    · simp [hk]
    · simp only [if_neg hk]
      exact ih hn.2
  | swap x y l =>
    obtain ⟨kx, vx⟩ := x
    obtain ⟨ky, vy⟩ := y
    unfold keysNodup at hn
    simp only [List.map_cons, List.nodup_cons, List.mem_cons] at hn
    rw [lookupA_cons, lookupA_cons, lookupA_cons, lookupA_cons]
    by_cases hx : kx = k
    · by_cases hy : ky = k
      · exact absurd (hy.trans hx.symm) (fun hh => hn.1 (Or.inl hh))
      · simp [hx, hy]
    · simp [hx]
  | trans h1 h2 ih1 ih2 =>
    have hn2 : keysNodup _ := ((h1.map Prod.fst).nodup_iff).mp hn
    exact (ih1 hn).trans (ih2 hn2)

theorem lookupA_map_snd {κ α β : Type} [DecidableEq κ] (l : List (κ × α)) (g : κ → α → β)
    (k : κ) : lookupA (l.map (fun p => (p.1, g p.1 p.2))) k = (lookupA l k).map (g k) := by
  induction l with
  | nil => rfl
  | cons p rest ih =>
    obtain ⟨k₀, v₀⟩ := p
    simp only [List.map_cons]
    rw [lookupA_cons, lookupA_cons]
    by_cases h : k₀ = k
    · subst h
      simp
    · simp [h, ih]

theorem lookupA_of_keys {α : Type} (L : List String) (g : String → α) (k : String) :
    lookupA (L.map (fun s => (s, g s))) k = if k ∈ L then some (g k) else none := by
  induction L with
  | nil => simp [lookupA_nil]
  | cons s rest ih =>
    simp only [List.map_cons]
    rw [lookupA_cons]
    by_cases h : s = k
    · simp [h]
    · simp [h, ih, Ne.symm h]

theorem runSteps_nil (step : FState → Obj → Int → FState) (st : FState) (seq : Int) :
    runSteps step st seq [] = st := rfl

theorem runSteps_cons (step : FState → Obj → Int → FState) (st : FState) (seq : Int)
    (r : Obj) (rs : List Obj) :
    runSteps step st seq (r :: rs) = runSteps step (step st r seq) (seq + 1) rs := rfl

theorem runSteps_append (step : FState → Obj → Int → FState) (l1 l2 : List Obj) :
    ∀ (st : FState) (seq : Int),
      runSteps step st seq (l1 ++ l2) = runSteps step (runSteps step st seq l1) (seq + l1.length) l2 := by
  induction l1 with
  | nil => intro st seq; simp [runSteps_nil]
  | cons r rs ih =>
    intro st seq
    rw [List.cons_append, runSteps_cons, runSteps_cons, ih]
    congr 1
    simp only [List.length_cons]
    push_cast
    ring

/-! Lemmas about sid validation. -/

theorem byteLen_of_hex (t : List Char) (h : ∀ c ∈ t, isAsciiHexdigit c = true) :
    byteLen t = t.length := by
  induction t with
  | nil => rfl
  | cons c rest ih =>
    have hc := h c (List.mem_cons_self c rest)
    have h1 : utf8Len c = 1 := by
      simp only [isAsciiHexdigit, Bool.or_eq_true, decide_eq_true_eq] at hc
      unfold utf8Len
      have : c.toNat < 128 := by omega
      simp [this]
    have ih' := ih (fun x hx => h x (List.mem_cons_of_mem _ hx))
    simp only [byteLen, List.map_cons, List.sum_cons, List.length_cons] at *
    omega

theorem validate_sid_true_iff (s : List Char) :
    validate_sid s = true ↔
      (rustTrim s ≠ [] ∧ byteLen (rustTrim s) ≤ MAX_SID_CHARS ∧
        ∀ c ∈ rustTrim s, isAsciiHexdigit c = true) := by
  unfold validate_sid
  split
  next h =>
    simp only [Bool.or_eq_true, List.isEmpty_iff, decide_eq_true_eq] at h
    constructor
    · intro hf
      exact absurd hf (by simp)
    · rintro ⟨h1, h2, h3⟩
      rcases h with h | h
      · exact absurd h h1
      · omega
  next h =>
    simp only [Bool.or_eq_true, List.isEmpty_iff, decide_eq_true_eq, not_or, not_lt] at h
    split
    next h2 =>
      simp only [Bool.not_eq_true'] at h2
      constructor
      · intro hf
        exact absurd hf (by simp)
      · rintro ⟨_, _, h3⟩
        rw [List.all_eq_true.mpr h3] at h2
        cases h2
    next h2 =>
      simp only [Bool.not_eq_true', Bool.not_eq_false] at h2
      exact ⟨fun _ => ⟨h.1, h.2, List.all_eq_true.mp h2⟩, fun _ => rfl⟩

/-- Claim C6 (corrected): validate_sid accepts exactly the sids whose
whitespace-trimmed form is non-empty, of at most 128 characters, and all ASCII
hex digits; and each of join, set_offer, set_answer and get_state answers any
other sid with one `invalid sid` error reply, leaving all state unchanged. -/
theorem validate_sid_spec :
    (∀ s : List Char, validate_sid s = true ↔
      (rustTrim s ≠ [] ∧ (rustTrim s).length ≤ MAX_SID_CHARS ∧
        ∀ c ∈ rustTrim s, isAsciiHexdigit c = true)) ∧
    (∀ (sessions : Sessions) (cs : ConnSt) (c : Nat) (f : Frame) (cmd : CMsg),
      versionOfCMsg cmd = 1 → validate_sid (sidOfCMsg cmd) = false →
      dispatch sessions cs c f cmd = ([SMsg.errorMsg 1 "invalid sid"], cs, sessions)) := by
  constructor
  · intro s
    rw [validate_sid_true_iff]
    constructor
    · rintro ⟨h1, h2, h3⟩
      exact ⟨h1, by rw [byteLen_of_hex _ h3] at h2; exact h2, h3⟩
    · rintro ⟨h1, h2, h3⟩
      exact ⟨h1, by rw [byteLen_of_hex _ h3]; exact h2, h3⟩
  · intro sessions cs c f cmd hv hbad
    cases cmd with
    | join v sid =>
      simp only [versionOfCMsg] at hv
      simp only [sidOfCMsg] at hbad
      simp [dispatch, hv, stepJoin, hbad]
    | set_offer v sid offer =>
      simp only [versionOfCMsg] at hv
      simp only [sidOfCMsg] at hbad
      simp [dispatch, hv, stepSetOffer, hbad]
    | set_answer v sid answer =>
      simp only [versionOfCMsg] at hv
      simp only [sidOfCMsg] at hbad
      simp [dispatch, hv, stepSetAnswer, hbad]
    | get_state v sid =>
      simp only [versionOfCMsg] at hv
      simp only [sidOfCMsg] at hbad
      simp [dispatch, hv, stepGetState, hbad]

/-- Witness for validate_sid_spec: both conjuncts at concrete inputs. -/
theorem validate_sid_spec_witness :
    (validate_sid ['a', 'b'] = true ↔
      (rustTrim ['a', 'b'] ≠ [] ∧ (rustTrim ['a', 'b']).length ≤ MAX_SID_CHARS ∧
        ∀ c ∈ rustTrim ['a', 'b'], isAsciiHexdigit c = true)) ∧
    dispatch [] initConnSt 0
      { isText := true, len := 4, refill := true, parsed := none, now := 0, sendOk := fun _ => true }
      (CMsg.join 1 ['z']) = ([SMsg.errorMsg 1 "invalid sid"], initConnSt, []) :=
  ⟨validate_sid_spec.1 ['a', 'b'],
   validate_sid_spec.2 [] initConnSt 0
     { isText := true, len := 4, refill := true, parsed := none, now := 0, sendOk := fun _ => true }
     (CMsg.join 1 ['z']) (by decide) (by decide)⟩

/-- Counterexample to claim C6 as stated: the sid " 0" is accepted by
validate_sid because the check runs on the trimmed string, yet " 0" itself is
not made of hex digits, refuting the accepts-iff as phrased over the raw sid. -/
theorem validate_sid_claim_counterexample :
    ¬ (validate_sid [' ', '0'] = true ↔
      (([' ', '0'] : List Char) ≠ [] ∧ ([' ', '0'] : List Char).length ≤ MAX_SID_CHARS ∧
        ∀ c ∈ ([' ', '0'] : List Char), isAsciiHexdigit c = true)) := by
  decide

/-- Claim C7 (confirmed): the receive loop breaks exactly on an oversized text
frame, and then after exactly one `message too large` error reply; every other
application-level error path continues the loop. -/
theorem oversized_frame_only_break (sessions : Sessions) (cs : ConnSt) (c : Nat) (f : Frame) :
    ((connStep sessions cs c f).brk = true ↔ (f.isText = true ∧ MAX_WS_TEXT_BYTES < f.len)) ∧
    ((connStep sessions cs c f).brk = true →
      (connStep sessions cs c f).replies = [SMsg.errorMsg 1 "message too large"]) := by
  unfold connStep
  by_cases h1 : f.isText = false
  · simp [h1]
  · have h1' : f.isText = true := by
      revert h1
      cases f.isText <;> simp
    by_cases h2 : MAX_WS_TEXT_BYTES < f.len
    · simp [h1', h2]
    · simp [h1', h2]

/-- Witness for oversized_frame_only_break at an oversized concrete frame. -/
theorem oversized_frame_only_break_witness :
    (connStep [] initConnSt 0
      { isText := true, len := 70000, refill := true, parsed := none, now := 0,
        sendOk := fun _ => true }).brk = true ∧
    (connStep [] initConnSt 0
      { isText := true, len := 70000, refill := true, parsed := none, now := 0,
        sendOk := fun _ => true }).replies = [SMsg.errorMsg 1 "message too large"] := by
  have h := oversized_frame_only_break [] initConnSt 0
    { isText := true, len := 70000, refill := true, parsed := none, now := 0,
      sendOk := fun _ => true }
  have hb := h.1.mpr (by constructor <;> decide)
  exact ⟨hb, h.2 hb⟩

theorem stepSetOffer_no_join_required (sessions : Sessions) (cs : ConnSt) (c : Nat)
    (f : Frame) (sid offer : List Char) (h : cs.joined_sid = some sid) :
    SMsg.errorMsg 1 "join required" ∉ (stepSetOffer sessions cs c f sid offer).1 := by
  unfold stepSetOffer
  rw [h]
  split
  · intro hmem
    simp only [List.mem_singleton, SMsg.errorMsg.injEq] at hmem
    exact absurd hmem.2 (by decide)
  · rw [if_neg (by simp)]
    split
    · intro hmem
      simp only [List.mem_singleton, SMsg.errorMsg.injEq] at hmem
      exact absurd hmem.2 (by decide)
    · simp

/-- Claim C10 (confirmed): a processed join with a valid sid records
joined_sid before the capacity checks, in every branch, so a later set_offer
for the same sid is never refused with `join required`. -/
theorem join_records_sid_before_capacity (sessions sessions' : Sessions) (cs : ConnSt)
    (c c' : Nat) (f f' : Frame) (sid offer : List Char)
    (ht : f.isText = true) (hl : f.len ≤ MAX_WS_TEXT_BYTES)
    (hb : 0 ≤ (if f.refill then 40 else cs.rate_budget) - 1)
    (hp : f.parsed = some (CMsg.join 1 sid)) (hv : validate_sid sid = true) :
    (connStep sessions cs c f).conn.joined_sid = some sid ∧
    (f'.isText = true → f'.len ≤ MAX_WS_TEXT_BYTES →
      0 ≤ (if f'.refill then 40 else (connStep sessions cs c f).conn.rate_budget) - 1 →
      f'.parsed = some (CMsg.set_offer 1 sid offer) →
      SMsg.errorMsg 1 "join required" ∉
        (connStep sessions' (connStep sessions cs c f).conn c' f').replies) := by
  have hlen : ¬ MAX_WS_TEXT_BYTES < f.len := not_lt.mpr hl
  have hjoined : (connStep sessions cs c f).conn.joined_sid = some sid := by
    unfold connStep connStepSmall dispatch stepJoin
    simp only [ht, hlen, hp, hv, Bool.true_eq_false, if_false, if_neg (not_lt.mpr hb),
      if_true, reduceIte]
    split
    · simp
    · split <;> simp
  refine ⟨hjoined, ?_⟩
  intro ht' hl' hb' hp'
  have hlen' : ¬ MAX_WS_TEXT_BYTES < f'.len := not_lt.mpr hl'
  generalize hcs' : (connStep sessions cs c f).conn = cs' at hjoined hb' ⊢
  unfold connStep connStepSmall dispatch
  simp only [ht', hlen', hp', Bool.true_eq_false, if_false, if_neg (not_lt.mpr hb'),
    if_true, reduceIte]
  exact stepSetOffer_no_join_required _ _ _ _ _ _ (by simp [hjoined])

/-! Claims about the projector's per-record behaviour. -/

/-- Claim C9 (confirmed): a task_opened record replaces the card for its task
wholesale: afterwards the card is in backlog at medium priority with no
snapshot, not provisional, its title recomputed from this record's claim and
meta.title, and its cursor at this record's position — independent of
everything the earlier records had done to the card. -/
theorem task_opened_replaces (pre : List Obj) (rec : Obj) (t : String)
    (hty : (getStr rec "type").getD "" = "task_opened")
    (htask : getStr rec "task_id" = some t) (hne : t ≠ "")
    (hearlier : ∃ r ∈ pre, (getStr r "type").getD "" = "task_opened" ∧ getStr r "task_id" = some t) :
    ∃ c : Card,
      lookupA (runSteps ledger_step initFState 1 (pre ++ [rec])).cards t = some c ∧
      c.status = "backlog" ∧ c.priority = "medium" ∧ c.latest_snapshot_id = none ∧
      c.provisional = false ∧ c.title = openedTitle rec ∧
      c.updated_seq = (pre.length : Int) + 1 ∧ c.updated_at = (getStr rec "ts").getD "" := by
  rw [runSteps_append, runSteps_cons, runSteps_nil]
  set st0 := runSteps ledger_step initFState 1 pre with hst0
  set sq : Int := 1 + (pre.length : Int) with hsq
  have hstep : ledger_step st0 rec sq =
      { st0 with cards := insertA st0.cards t (set_updated
          { task_id := t, title := openedTitle rec, status := "backlog",
            priority := "medium", updated_at := "", updated_seq := 0,
            latest_snapshot_id := none, provisional := false } ((getStr rec "ts").getD "") sq) } := by
    unfold ledger_step
    rw [hty, htask]
    simp [hne]
  rw [hstep]
  refine ⟨_, lookupA_insertA_self _ _ _, ?_⟩
  have hpos : (0 : Int) ≤ sq := by
    rw [hsq]
    positivity
  unfold set_updated
  rw [if_pos hpos]
  refine ⟨rfl, rfl, rfl, rfl, rfl, ?_, ?_⟩
  · show sq = (pre.length : Int) + 1
    rw [hsq]
    ring
  · show (if (getStr rec "ts").getD "" = "" then "" else (getStr rec "ts").getD "") =
      (getStr rec "ts").getD ""
    split <;> simp_all

/-- Witness for task_opened_replaces: a two-record ledger reopening T1. -/
theorem task_opened_replaces_witness :
    ∃ c : Card,
      lookupA (runSteps ledger_step initFState 1
        ([[("type", J.str "task_opened"), ("task_id", J.str "T1"), ("claim", J.str "old")],
          [("type", J.str "snapshot"), ("task_id", J.str "T1"), ("id", J.str "S1")]] ++
         [[("type", J.str "task_opened"), ("ts", J.str "B"), ("task_id", J.str "T1"),
           ("claim", J.str "new")]])).cards "T1" = some c ∧
      c.status = "backlog" ∧ c.priority = "medium" ∧ c.latest_snapshot_id = none ∧
      c.provisional = false ∧
      c.title = openedTitle [("type", J.str "task_opened"), ("ts", J.str "B"),
        ("task_id", J.str "T1"), ("claim", J.str "new")] ∧
      c.updated_seq = (([[("type", J.str "task_opened"), ("task_id", J.str "T1"), ("claim", J.str "old")],
          [("type", J.str "snapshot"), ("task_id", J.str "T1"), ("id", J.str "S1")]] : List Obj).length : Int) + 1 ∧
      c.updated_at = (getStr [("type", J.str "task_opened"), ("ts", J.str "B"),
        ("task_id", J.str "T1"), ("claim", J.str "new")] "ts").getD "" :=
  task_opened_replaces _ _ "T1" (by decide) (by decide) (by decide)
    ⟨[("type", J.str "task_opened"), ("task_id", J.str "T1"), ("claim", J.str "old")],
      List.mem_cons_self _ _, by decide, by decide⟩

/-- Claim C5 (amended, corrected): a resume or note directive for an existing
card leaves the whole card table unchanged — there is no timestamp bump at
all; such a directive only feeds the unread-directive bookkeeping. -/
theorem resume_note_frame (st : FState) (d : Obj) (seq : Int) (t : String)
    (hty : (getStr d "type").getD "" = "resume" ∨ (getStr d "type").getD "" = "note")
    (htask : getStr d "task_id" = some t)
    (hcard : containsA st.cards t = true) :
    (control_step st d seq).cards = st.cards := by
  have hot : ¬((getStr d "type").getD "" = "open_task") := by
    rcases hty with h | h <;> simp [h]
  have hph : placeholderCards st.cards d = st.cards := by
    unfold placeholderCards
    rw [htask]
    by_cases h0 : t = ""
    · simp [h0]
    · simp [h0, hcard]
  unfold control_step controlTail
  dsimp only
  rw [if_neg hot, if_pos hot, hph, htask]
  dsimp only
  by_cases h0 : t = ""
  · simp [h0]
  · rw [if_neg h0]
    obtain ⟨card, hc⟩ : ∃ card, lookupA st.cards t = some card := by
      cases hl : lookupA st.cards t
      · rw [containsA, hl] at hcard
        simp at hcard
      · exact ⟨_, rfl⟩
    rw [hc]
    dsimp only
    have hmut : directiveMutate card ((getStr d "type").getD "") (getObjField d "payload")
        ((getStr d "ts").getD "") seq = card := by
      unfold directiveMutate
      rcases hty with h | h <;> rw [h] <;> simp
    rw [hmut, insertA_lookup_eq_self st.cards t card hc]
    split
    · split
      · rfl
      · split <;> rfl
    · rfl

/-- Witness for resume_note_frame: a note for an opened card changes nothing. -/
theorem resume_note_frame_witness :
    (control_step (runSteps ledger_step initFState 1
        [[("type", J.str "task_opened"), ("ts", J.str "A"), ("task_id", J.str "T1"),
          ("claim", J.str "x")]])
      [("type", J.str "note"), ("ts", J.str "B"), ("task_id", J.str "T1"), ("id", J.str "D9")] 1).cards =
    (runSteps ledger_step initFState 1
      [[("type", J.str "task_opened"), ("ts", J.str "A"), ("task_id", J.str "T1"),
        ("claim", J.str "x")]]).cards :=
  resume_note_frame _ _ 1 "T1" (Or.inr (by decide)) (by decide) (by decide)

/-- Counterexample to claim C5 as stated: a resume record at seq 1 with ts "B"
targeting the card T1 whose cursor is ("A", 1) would, per the claim, advance
updated_at to "B" (its seq is at least the card's); the code leaves it "A". -/
theorem resume_note_bump_counterexample :
    (lookupA (cardTable
        [[("type", J.str "task_opened"), ("ts", J.str "A"), ("task_id", J.str "T1"),
          ("claim", J.str "x")]]
        [[("type", J.str "resume"), ("ts", J.str "B"), ("task_id", J.str "T1"),
          ("id", J.str "D9")]]).cards "T1").map (fun c => c.updated_at) = some "A" ∧
    ¬ ((lookupA (cardTable
        [[("type", J.str "task_opened"), ("ts", J.str "A"), ("task_id", J.str "T1"),
          ("claim", J.str "x")]]
        [[("type", J.str "resume"), ("ts", J.str "B"), ("task_id", J.str "T1"),
          ("id", J.str "D9")]]).cards "T1").map (fun c => c.updated_at) = some "B") := by
  constructor
  · decide
  · decide

/-! Structural facts about the two fold passes. -/

theorem ledger_step_unread (st : FState) (r : Obj) (seq : Int) :
    (ledger_step st r seq).unread = st.unread := by
  unfold ledger_step
  dsimp only
  repeat' split
  all_goals rfl

theorem ledger_step_lastAckSeq (st : FState) (r : Obj) (seq : Int) :
    (ledger_step st r seq).lastAckSeq = st.lastAckSeq := by
  unfold ledger_step
  dsimp only
  repeat' split
  all_goals rfl

theorem runLedger_unread (l : List Obj) : ∀ (st : FState) (seq : Int),
    (runSteps ledger_step st seq l).unread = st.unread := by
  induction l with
  | nil => intro st seq; rfl
  | cons r rs ih =>
    intro st seq
    rw [runSteps_cons, ih, ledger_step_unread]

theorem runLedger_lastAckSeq (l : List Obj) : ∀ (st : FState) (seq : Int),
    (runSteps ledger_step st seq l).lastAckSeq = st.lastAckSeq := by
  induction l with
  | nil => intro st seq; rfl
  | cons r rs ih =>
    intro st seq
    rw [runSteps_cons, ih, ledger_step_lastAckSeq]

theorem ledger_step_acked_mono (st : FState) (r : Obj) (seq : Int) (i : String)
    (h : i ∈ st.acked) : i ∈ (ledger_step st r seq).acked := by
  unfold ledger_step
  dsimp only
  repeat' split
  all_goals first | exact h | exact List.mem_insert_of_mem h

theorem ledger_step_ack_sets (st : FState) (r : Obj) (seq : Int) (i : String)
    (hty : (getStr r "type").getD "" = "ack_directive")
    (hmid : meta_directive_id r = some i) (hne : i ≠ "") :
    i ∈ (ledger_step st r seq).acked := by
  unfold ledger_step
  dsimp only
  rw [hty]
  rw [if_neg (by decide), if_neg (by decide), if_neg (by decide), if_pos rfl]
  unfold meta_directive_id at hmid
  obtain ⟨m, hm, hdid⟩ := Option.bind_eq_some.mp hmid
  rw [hm]
  dsimp only
  rw [hdid]
  dsimp only
  rw [if_neg hne]
  exact List.mem_insert_self i st.acked

theorem runLedger_acked_mono (l : List Obj) : ∀ (st : FState) (seq : Int) (i : String),
    i ∈ st.acked → i ∈ (runSteps ledger_step st seq l).acked := by
  induction l with
  | nil => intro st seq i h; exact h
  | cons r rs ih =>
    intro st seq i h
    rw [runSteps_cons]
    exact ih _ _ _ (ledger_step_acked_mono st r seq i h)

theorem runLedger_ack_sets (l : List Obj) : ∀ (st : FState) (seq : Int) (r : Obj) (i : String),
    r ∈ l → (getStr r "type").getD "" = "ack_directive" →
    meta_directive_id r = some i → i ≠ "" →
    i ∈ (runSteps ledger_step st seq l).acked := by
  induction l with
  | nil => intro st seq r i h; cases h
  | cons r0 rs ih =>
    intro st seq r i hmem hty hmid hne
    rw [runSteps_cons]
    rcases List.mem_cons.mp hmem with h | h
    · subst h
      exact runLedger_acked_mono rs _ _ _ (ledger_step_ack_sets st r seq i hty hmid hne)
    · exact ih _ _ _ _ h hty hmid hne

theorem control_step_acked (st : FState) (d : Obj) (seq : Int) :
    (control_step st d seq).acked = st.acked := by
  unfold control_step controlTail
  dsimp only
  repeat' split
  all_goals rfl

theorem runControl_acked (l : List Obj) : ∀ (st : FState) (seq : Int),
    (runSteps control_step st seq l).acked = st.acked := by
  induction l with
  | nil => intro st seq; rfl
  | cons d ds ih =>
    intro st seq
    rw [runSteps_cons, ih, control_step_acked]

theorem control_step_unread_cases (st : FState) (d : Obj) (seq : Int) :
    (control_step st d seq).unread = st.unread ∨
    ∃ t i, (control_step st d seq).unread = pushUnread st.unread t i ∧
      i ∉ st.acked ∧ i ≠ "" := by
  unfold control_step controlTail
  dsimp only
  repeat' split
  all_goals first
    | exact Or.inl rfl
    | exact Or.inr ⟨_, _, rfl, by assumption, by assumption⟩

theorem lookupA_append {κ α : Type} [DecidableEq κ] (l1 l2 : List (κ × α)) (k : κ) :
    lookupA (l1 ++ l2) k =
      match lookupA l1 k with
      | some v => some v
      | none => lookupA l2 k := by
  induction l1 with
  | nil => simp [lookupA_nil]
  | cons p rest ih =>
    obtain ⟨k0, v0⟩ := p
    rw [List.cons_append, lookupA_cons, lookupA_cons]
    by_cases h : k0 = k
    · simp [h]
    · simp [h, ih]

theorem mem_pushUnread (u : List (String × List String)) (t0 i0 t i : String)
    (h : i ∈ (lookupA (pushUnread u t0 i0) t).getD []) :
    i ∈ (lookupA u t).getD [] ∨ (t = t0 ∧ i = i0) := by
  unfold pushUnread at h
  by_cases ht : t = t0
  · subst ht
    cases hl : lookupA u t with
    | some l0 =>
      rw [hl] at h
      rw [lookupA_insertA_self] at h
      simp only [Option.getD_some, List.mem_append, List.mem_singleton] at h
      rcases h with h | h
      · left
        simpa using h
      · right
        exact ⟨rfl, h⟩
    | none =>
      rw [hl] at h
      rw [lookupA_append, hl] at h
      rw [lookupA_cons, if_pos rfl] at h
      right
      simpa using h
  · cases hl : lookupA u t0 with
    | some l0 =>
      rw [hl] at h
      rw [lookupA_insertA_ne _ _ _ _ ht] at h
      exact Or.inl h
    | none =>
      rw [hl] at h
      rw [lookupA_append] at h
      cases hu : lookupA u t with
      | some l1 =>
        rw [hu] at h
        left
        simpa using h
      | none =>
        rw [hu] at h
        rw [lookupA_cons, if_neg (Ne.symm ht), lookupA_nil] at h
        simp at h

theorem control_step_unread_inv (st : FState) (d : Obj) (seq : Int)
    (h : ∀ t i, i ∈ (lookupA st.unread t).getD [] → i ∉ st.acked ∧ i ≠ "") :
    ∀ t i, i ∈ (lookupA (control_step st d seq).unread t).getD [] →
      i ∉ (control_step st d seq).acked ∧ i ≠ "" := by
  rw [control_step_acked]
  rcases control_step_unread_cases st d seq with hu | ⟨t0, i0, hu, hnm, hne⟩
  · rw [hu]
    exact h
  · rw [hu]
    intro t i hm
    rcases mem_pushUnread _ _ _ _ _ hm with hold | ⟨_, rfl⟩
    · exact h t i hold
    · exact ⟨hnm, hne⟩

theorem runControl_unread_inv (l : List Obj) : ∀ (st : FState) (seq : Int),
    (∀ t i, i ∈ (lookupA st.unread t).getD [] → i ∉ st.acked ∧ i ≠ "") →
    ∀ t i, i ∈ (lookupA (runSteps control_step st seq l).unread t).getD [] →
      i ∉ (runSteps control_step st seq l).acked ∧ i ≠ "" := by
  induction l with
  | nil => intro st seq h; exact h
  | cons d ds ih =>
    intro st seq h
    rw [runSteps_cons]
    exact ih _ _ (control_step_unread_inv st d seq h)

/-- Claim C3 (confirmed): every directive id listed in unread_directives is
absent from the meta.directive_id values of the ledger's ack_directive
records. -/
theorem unread_never_acked (ledger control : List Obj) (t i : String)
    (hmem : i ∈ (lookupA (cardTable ledger control).unread t).getD []) :
    ∀ rec ∈ ledger, (getStr rec "type").getD "" = "ack_directive" →
      meta_directive_id rec ≠ some i := by
  have hbase : (runSteps ledger_step initFState 1 ledger).unread = [] :=
    runLedger_unread ledger initFState 1
  have hinv := runControl_unread_inv control (runSteps ledger_step initFState 1 ledger) 1
    (by
      intro t' i' hm
      rw [hbase] at hm
      simp [lookupA_nil] at hm)
  have h2 := hinv t i hmem
  intro rec hrec hty hmid
  have hacked : i ∈ (runSteps ledger_step initFState 1 ledger).acked :=
    runLedger_ack_sets ledger initFState 1 rec i hrec hty hmid h2.2
  apply h2.1
  rw [runControl_acked]
  exact hacked

/-- Witness for unread_never_acked: D1 unread, D2 acknowledged. -/
theorem unread_never_acked_witness :
    ("D1" ∈ (lookupA (cardTable
        [[("type", J.str "ack_directive"), ("meta", J.obj [("directive_id", J.str "D2")])]]
        [[("type", J.str "note"), ("task_id", J.str "T1"), ("id", J.str "D1")]]).unread "T1").getD []) ∧
    (∀ rec ∈ ([[("type", J.str "ack_directive"), ("meta", J.obj [("directive_id", J.str "D2")])]] : List Obj),
      (getStr rec "type").getD "" = "ack_directive" → meta_directive_id rec ≠ some "D1") :=
  ⟨by decide,
   unread_never_acked
     [[("type", J.str "ack_directive"), ("meta", J.obj [("directive_id", J.str "D2")])]]
     [[("type", J.str "note"), ("task_id", J.str "T1"), ("id", J.str "D1")]] "T1" "D1" (by decide)⟩

/-! Status and priority validity (claim C8). -/

theorem set_updated_status (c : Card) (ts : String) (seq : Int) :
    (set_updated c ts seq).status = c.status := by
  unfold set_updated
  split <;> rfl

theorem set_updated_priority (c : Card) (ts : String) (seq : Int) :
    (set_updated c ts seq).priority = c.priority := by
  unfold set_updated
  split <;> rfl

theorem goodCard_set_updated (c : Card) (ts : String) (seq : Int) (h : goodCard c) :
    goodCard (set_updated c ts seq) := by
  unfold goodCard at h ⊢
  rw [set_updated_status, set_updated_priority]
  exact h

theorem goodCard_directiveMutate (card : Card) (dType : String) (payload : Option Obj)
    (ts : String) (seq : Int) (h : goodCard card) :
    goodCard (directiveMutate card dType payload ts seq) := by
  unfold directiveMutate
  split
  · cases hs : asStr (payload.bind fun p => getV p "status") with
    | none => exact h
    | some s =>
      dsimp only
      by_cases hv : is_status s = true
      · rw [if_pos hv]
        exact goodCard_set_updated _ _ _ ⟨hv, h.2⟩
      · rw [if_neg hv]
        exact h
  · split
    · cases hp : asStr (payload.bind fun p => getV p "priority") with
      | none => exact h
      | some pv =>
        dsimp only
        by_cases hv : is_priority pv = true
        · rw [if_pos hv]
          exact goodCard_set_updated _ _ _ ⟨h.1, hv⟩
        · rw [if_neg hv]
          exact h
    · split
      · exact goodCard_set_updated _ _ _ ⟨(by decide : is_status "blocked" = true), h.2⟩
      · exact h

theorem goodCard_openTaskApply (base : Card) (titleO statusO prioO : Option String)
    (ts : String) (seq : Int) (h : goodCard base) :
    goodCard (openTaskApply base titleO statusO prioO ts seq) := by
  unfold openTaskApply
  dsimp only
  apply goodCard_set_updated
  have h1 : goodCard (match titleO with
      | some ti =>
        if ti ≠ "" ∧ (base.title = "(unopened task)" ∨ base.title = "Untitled task") then
          { base with title := ti }
        else base
      | none => base) := by
    rcases titleO with _ | ti
    · exact h
    · dsimp only
      split
      · exact ⟨h.1, h.2⟩
      · exact h
  set c1 := (match titleO with
      | some ti =>
        if ti ≠ "" ∧ (base.title = "(unopened task)" ∨ base.title = "Untitled task") then
          { base with title := ti }
        else base
      | none => base) with hc1
  have h2 : goodCard (match statusO with
      | some s => if is_status s then { c1 with status := s } else c1
      | none => c1) := by
    rcases statusO with _ | s
    · exact h1
    · dsimp only
      by_cases hv : is_status s = true
      · rw [if_pos hv]
        exact ⟨hv, h1.2⟩
      · rw [if_neg hv]
        exact h1
  set c2 := (match statusO with
      | some s => if is_status s then { c1 with status := s } else c1
      | none => c1) with hc2
  rcases prioO with _ | pv
  · exact h2
  · dsimp only
    by_cases hv : is_priority pv = true
    · rw [if_pos hv]
      exact ⟨h2.1, hv⟩
    · rw [if_neg hv]
      exact h2

theorem openTaskCards_good (cards : List (String × Card)) (d : Obj) (ts : String) (seq : Int)
    (h : ∀ p ∈ cards, goodCard p.2) :
    ∀ p ∈ openTaskCards cards d ts seq, goodCard p.2 := by
  unfold openTaskCards
  cases htask : getStr d "task_id" with
  | none => exact h
  | some t =>
    dsimp only
    by_cases h0 : t = ""
    · rw [if_pos h0]
      exact h
    · rw [if_neg h0]
      intro p hp
      rcases mem_insertA hp with rfl | hp'
      · apply goodCard_openTaskApply
        cases hc : lookupA cards t with
        | none =>
          exact ⟨(by decide : is_status "backlog" = true),
            (by decide : is_priority "medium" = true)⟩
        | some card => simpa using h _ (mem_of_lookupA hc)
      · exact h _ hp'

theorem placeholderCards_good (cards : List (String × Card)) (d : Obj)
    (h : ∀ p ∈ cards, goodCard p.2) :
    ∀ p ∈ placeholderCards cards d, goodCard p.2 := by
  unfold placeholderCards
  cases htask : getStr d "task_id" with
  | none => exact h
  | some t =>
    dsimp only
    by_cases h0 : t = ""
    · rw [if_pos h0]
      exact h
    · rw [if_neg h0]
      split
      · exact h
      · intro p hp
        rcases mem_insertA hp with rfl | hp'
        · exact ⟨(by decide : is_status "backlog" = true),
            (by decide : is_priority "medium" = true)⟩
        · exact h _ hp'

theorem ledger_step_good (st : FState) (r : Obj) (seq : Int)
    (h : ∀ p ∈ st.cards, goodCard p.2) :
    ∀ p ∈ (ledger_step st r seq).cards, goodCard p.2 := by
  unfold ledger_step
  dsimp only
  split
  · cases htask : getStr r "task_id" with
    | none => exact h
    | some t =>
      dsimp only
      by_cases h0 : t = ""
      · rw [if_pos h0]
        exact h
      · rw [if_neg h0]
        intro p hp
        rcases mem_insertA hp with rfl | hp'
        · exact goodCard_set_updated _ _ _ ⟨(by decide : is_status "backlog" = true),
            (by decide : is_priority "medium" = true)⟩
        · exact h _ hp'
  · split
    · cases htask : getStr r "task_id" with
      | none => exact h
      | some t =>
        dsimp only
        by_cases h0 : t = ""
        · rw [if_pos h0]
          exact h
        · rw [if_neg h0]
          cases hc : lookupA st.cards t with
          | none => exact h
          | some card =>
            dsimp only
            intro p hp
            rcases mem_insertA hp with rfl | hp'
            · apply goodCard_set_updated
              have hg := h _ (mem_of_lookupA hc)
              repeat' split
              all_goals first | exact hg | exact ⟨hg.1, hg.2⟩
            · exact h _ hp'
    · split
      · cases htask : getStr r "task_id" with
        | none => exact h
        | some t =>
          dsimp only
          by_cases h0 : t = ""
          · rw [if_pos h0]
            exact h
          · rw [if_neg h0]
            cases hc : lookupA st.cards t with
            | none => exact h
            | some card =>
              dsimp only
              intro p hp
              rcases mem_insertA hp with rfl | hp'
              · apply goodCard_set_updated
                have hg := h _ (mem_of_lookupA hc)
                exact ⟨hg.1, hg.2⟩
              · exact h _ hp'
      · split
        · repeat' split
          all_goals exact h
        · exact h

/-- Every control step leaves the card table either as the open_task or
placeholder upsert of the previous table, or as that table with the
referenced existing card replaced by its directiveMutate image. -/
theorem control_step_cards_cases (st : FState) (d : Obj) (seq : Int) :
    ∃ C : List (String × Card),
      ((control_step st d seq).cards = C ∨
        ∃ t card, lookupA C t = some card ∧
          (control_step st d seq).cards = insertA C t (directiveMutate card
            ((getStr d "type").getD "") (getObjField d "payload") ((getStr d "ts").getD "") seq)) ∧
      (((getStr d "type").getD "" = "open_task" ∧
          C = openTaskCards st.cards d ((getStr d "ts").getD "") seq) ∨
        ((getStr d "type").getD "" ≠ "open_task" ∧ C = placeholderCards st.cards d)) := by
  unfold control_step controlTail
  dsimp only
  generalize (getStr d "type").getD "" = dty
  repeat' split
  all_goals first
    | exact ⟨_, Or.inl rfl, Or.inl ⟨by assumption, rfl⟩⟩
    | exact ⟨_, Or.inl rfl, Or.inr ⟨by assumption, rfl⟩⟩
    | exact ⟨_, Or.inl rfl, Or.inl ⟨rfl, rfl⟩⟩
    | exact ⟨_, Or.inr ⟨_, _, by assumption, rfl⟩, Or.inl ⟨by assumption, rfl⟩⟩
    | exact ⟨_, Or.inr ⟨_, _, by assumption, rfl⟩, Or.inr ⟨by assumption, rfl⟩⟩
    | exact ⟨_, Or.inr ⟨_, _, by assumption, rfl⟩, Or.inl ⟨rfl, rfl⟩⟩
    | (simp_all
       all_goals first
         | exact Or.inl rfl
         | exact Or.inr ⟨_, _, by assumption, rfl⟩)

theorem control_step_good (st : FState) (d : Obj) (seq : Int)
    (h : ∀ p ∈ st.cards, goodCard p.2) :
    ∀ p ∈ (control_step st d seq).cards, goodCard p.2 := by
  obtain ⟨C, hres, hC⟩ := control_step_cards_cases st d seq
  have hCgood : ∀ p ∈ C, goodCard p.2 := by
    rcases hC with ⟨_, rfl⟩ | ⟨_, rfl⟩
    · exact openTaskCards_good _ _ _ _ h
    · exact placeholderCards_good _ _ h
  rcases hres with hres | ⟨t, card, hfind, hres⟩
  · rw [hres]
    exact hCgood
  · rw [hres]
    intro p hp
    rcases mem_insertA hp with rfl | hp'
    · exact goodCard_directiveMutate _ _ _ _ _ (hCgood _ (mem_of_lookupA hfind))
    · exact hCgood _ hp'

theorem placeholderCards_lookup_some (cards : List (String × Card)) (d : Obj) (t : String)
    (c : Card) (h : lookupA cards t = some c) :
    lookupA (placeholderCards cards d) t = some c := by
  unfold placeholderCards
  cases htask : getStr d "task_id" with
  | none => exact h
  | some t0 =>
    dsimp only
    by_cases h0 : t0 = ""
    · rw [if_pos h0]
      exact h
    · rw [if_neg h0]
      split
      · exact h
      · next hcont =>
        by_cases ht : t = t0
        · subst ht
          rw [containsA, h] at hcont
          simp at hcont
        · rw [lookupA_insertA_ne _ _ _ _ ht]
          exact h

theorem directiveMutate_invalid_status (card : Card) (payload : Option Obj) (ts : String)
    (seq : Int) (s : String) (hs : asStr (payload.bind fun p => getV p "status") = some s)
    (hv : is_status s = false) :
    directiveMutate card "set_status" payload ts seq = card := by
  unfold directiveMutate
  rw [if_pos rfl, hs]
  dsimp only
  rw [if_neg (by simp [hv])]

theorem directiveMutate_open_task (card : Card) (payload : Option Obj) (ts : String)
    (seq : Int) : directiveMutate card "open_task" payload ts seq = card := by
  unfold directiveMutate
  rw [if_neg (by decide), if_neg (by decide), if_neg (by decide)]

theorem control_step_invalid_set_status (st : FState) (d : Obj) (seq : Int) (s : String)
    (hty : (getStr d "type").getD "" = "set_status")
    (hs : asStr ((getObjField d "payload").bind fun p => getV p "status") = some s)
    (hv : is_status s = false) :
    (control_step st d seq).cards = placeholderCards st.cards d := by
  obtain ⟨C, hres, hC⟩ := control_step_cards_cases st d seq
  rcases hC with ⟨hod, _⟩ | ⟨_, rfl⟩
  · rw [hty] at hod
    exact absurd hod (by decide)
  · rcases hres with hres | ⟨t, card, hfind, hres⟩
    · exact hres
    · rw [hty, directiveMutate_invalid_status card _ _ _ s hs hv,
        insertA_lookup_eq_self _ _ _ hfind] at hres
      exact hres

theorem openTaskApply_status_invalid (base : Card) (titleO prioO : Option String)
    (ts : String) (seq : Int) (s : String) (hv : is_status s = false) :
    (openTaskApply base titleO (some s) prioO ts seq).status = base.status := by
  unfold openTaskApply
  dsimp only
  rw [set_updated_status]
  simp only [if_neg (by simp [hv] : ¬ (is_status s = true))]
  repeat' split
  all_goals rfl

theorem openTaskApply_priority_invalid (base : Card) (titleO statusO : Option String)
    (ts : String) (seq : Int) (pv : String) (hv : is_priority pv = false) :
    (openTaskApply base titleO statusO (some pv) ts seq).priority = base.priority := by
  unfold openTaskApply
  dsimp only
  rw [set_updated_priority]
  simp only [if_neg (by simp [hv] : ¬ (is_priority pv = true))]
  repeat' split
  all_goals rfl

theorem control_step_open_task_cards (st : FState) (d : Obj) (seq : Int)
    (hty : (getStr d "type").getD "" = "open_task") :
    (control_step st d seq).cards =
      openTaskCards st.cards d ((getStr d "ts").getD "") seq := by
  obtain ⟨C, hres, hC⟩ := control_step_cards_cases st d seq
  rcases hC with ⟨_, rfl⟩ | ⟨hod, _⟩
  · rcases hres with hres | ⟨t, card, hfind, hres⟩
    · exact hres
    · rw [hty, directiveMutate_open_task, insertA_lookup_eq_self _ _ _ hfind] at hres
      exact hres
  · exact absurd hty hod

theorem openTaskCards_status_invalid (cards : List (String × Card)) (d : Obj) (ts : String)
    (seq : Int) (t : String) (c : Card) (s : String)
    (hs : asStr ((getObjField d "payload").bind fun p => getV p "status") = some s)
    (hv : is_status s = false) (hc : lookupA cards t = some c) :
    (lookupA (openTaskCards cards d ts seq) t).map Card.status = some c.status := by
  unfold openTaskCards
  cases htask : getStr d "task_id" with
  | none =>
    rw [hc]
    rfl
  | some t0 =>
    dsimp only
    by_cases h0 : t0 = ""
    · rw [if_pos h0, hc]
      rfl
    · rw [if_neg h0]
      by_cases ht : t = t0
      · subst ht
        rw [lookupA_insertA_self, hc]
        dsimp only [Option.getD_some, Option.map_some']
        rw [hs]
        rw [openTaskApply_status_invalid _ _ _ _ _ _ hv]
      · rw [lookupA_insertA_ne _ _ _ _ ht, hc]
        rfl

theorem openTaskCards_priority_invalid (cards : List (String × Card)) (d : Obj) (ts : String)
    (seq : Int) (t : String) (c : Card) (pv : String)
    (hp : asStr ((getObjField d "payload").bind fun p => getV p "priority") = some pv)
    (hv : is_priority pv = false) (hc : lookupA cards t = some c) :
    (lookupA (openTaskCards cards d ts seq) t).map Card.priority = some c.priority := by
  unfold openTaskCards
  cases htask : getStr d "task_id" with
  | none =>
    rw [hc]
    rfl
  | some t0 =>
    dsimp only
    by_cases h0 : t0 = ""
    · rw [if_pos h0, hc]
      rfl
    · rw [if_neg h0]
      by_cases ht : t = t0
      · subst ht
        rw [lookupA_insertA_self, hc]
        dsimp only [Option.getD_some, Option.map_some']
        rw [hp]
        rw [openTaskApply_priority_invalid _ _ _ _ _ _ hv]
      · rw [lookupA_insertA_ne _ _ _ _ ht, hc]
        rfl

theorem runLedger_good (l : List Obj) : ∀ (st : FState) (seq : Int),
    (∀ p ∈ st.cards, goodCard p.2) →
    ∀ p ∈ (runSteps ledger_step st seq l).cards, goodCard p.2 := by
  induction l with
  | nil => intro st seq h; exact h
  | cons r rs ih =>
    intro st seq h
    rw [runSteps_cons]
    exact ih _ _ (ledger_step_good st r seq h)

theorem runControl_good (l : List Obj) : ∀ (st : FState) (seq : Int),
    (∀ p ∈ st.cards, goodCard p.2) →
    ∀ p ∈ (runSteps control_step st seq l).cards, goodCard p.2 := by
  induction l with
  | nil => intro st seq h; exact h
  | cons d ds ih =>
    intro st seq h
    rw [runSteps_cons]
    exact ih _ _ (control_step_good st d seq h)

theorem cardTable_good (ledger control : List Obj) :
    ∀ p ∈ (cardTable ledger control).cards, goodCard p.2 := by
  unfold cardTable
  apply runControl_good
  apply runLedger_good
  intro p hp
  cases hp

/-- Claim C8 (confirmed): every card of every Board produced by fold carries
one of the six statuses and one of the four priorities; and a set_status or
open_task directive whose payload status or priority is outside these sets
leaves the prior value of every existing card unchanged. -/
theorem board_status_priority_valid :
    (∀ (ledger control : List Obj) (enum : List (String × Card)) (now : String)
        (t : String) (co : CardOut),
      enum.Perm (cardTable ledger control).cards →
      (t, co) ∈ (mkBoard (cardTable ledger control) enum now).cards →
      is_status co.status = true ∧ is_priority co.priority = true) ∧
    (∀ (st : FState) (d : Obj) (seq : Int) (s : String),
      (getStr d "type").getD "" = "set_status" →
      asStr ((getObjField d "payload").bind fun p => getV p "status") = some s →
      is_status s = false →
      ∀ (t : String) (c : Card), lookupA st.cards t = some c →
        (lookupA (control_step st d seq).cards t).map Card.status = some c.status ∧
        (lookupA (control_step st d seq).cards t).map Card.priority = some c.priority) ∧
    (∀ (st : FState) (d : Obj) (seq : Int) (s : String),
      (getStr d "type").getD "" = "open_task" →
      asStr ((getObjField d "payload").bind fun p => getV p "status") = some s →
      is_status s = false →
      ∀ (t : String) (c : Card), lookupA st.cards t = some c →
        (lookupA (control_step st d seq).cards t).map Card.status = some c.status) ∧
    (∀ (st : FState) (d : Obj) (seq : Int) (pv : String),
      (getStr d "type").getD "" = "open_task" →
      asStr ((getObjField d "payload").bind fun p => getV p "priority") = some pv →
      is_priority pv = false →
      ∀ (t : String) (c : Card), lookupA st.cards t = some c →
        (lookupA (control_step st d seq).cards t).map Card.priority = some c.priority) := by
  refine ⟨?_, ?_, ?_, ?_⟩
  · intro ledger control enum now t co hperm hmem
    unfold mkBoard at hmem
    dsimp only at hmem
    obtain ⟨p, hp, hpe⟩ := List.mem_map.mp hmem
    cases hpe
    have hg := cardTable_good ledger control p (hperm.mem_iff.mp hp)
    exact ⟨hg.1, hg.2⟩
  · intro st d seq s hty hs hv t c hc
    rw [control_step_invalid_set_status st d seq s hty hs hv,
      placeholderCards_lookup_some _ _ _ _ hc]
    exact ⟨rfl, rfl⟩
  · intro st d seq s hty hs hv t c hc
    rw [control_step_open_task_cards st d seq hty]
    exact openTaskCards_status_invalid _ _ _ _ _ _ _ hs hv hc
  · intro st d seq pv hty hp hv t c hc
    rw [control_step_open_task_cards st d seq hty]
    exact openTaskCards_priority_invalid _ _ _ _ _ _ _ hp hv hc

/-- Witness for board_status_priority_valid: all four conjuncts at a
one-card workspace with invalid payloads "banana" and "mega". -/
theorem board_status_priority_valid_witness :
    (is_status "backlog" = true ∧ is_priority "medium" = true) ∧
    ((lookupA (control_step (cardTable
        [[("type", J.str "task_opened"), ("ts", J.str "A"), ("task_id", J.str "T1"),
          ("claim", J.str "x")]] [])
        [("type", J.str "set_status"), ("task_id", J.str "T1"),
          ("payload", J.obj [("status", J.str "banana")])] 1).cards "T1").map Card.status =
      some "backlog") ∧
    ((lookupA (control_step (cardTable
        [[("type", J.str "task_opened"), ("ts", J.str "A"), ("task_id", J.str "T1"),
          ("claim", J.str "x")]] [])
        [("type", J.str "open_task"), ("task_id", J.str "T1"),
          ("payload", J.obj [("status", J.str "banana")])] 1).cards "T1").map Card.status =
      some "backlog") ∧
    ((lookupA (control_step (cardTable
        [[("type", J.str "task_opened"), ("ts", J.str "A"), ("task_id", J.str "T1"),
          ("claim", J.str "x")]] [])
        [("type", J.str "open_task"), ("task_id", J.str "T1"),
          ("payload", J.obj [("priority", J.str "mega")])] 1).cards "T1").map Card.priority =
      some "medium") := by
  refine ⟨?_, ?_, ?_, ?_⟩
  · exact board_status_priority_valid.1
      [[("type", J.str "task_opened"), ("ts", J.str "A"), ("task_id", J.str "T1"),
        ("claim", J.str "x")]] []
      (cardTable [[("type", J.str "task_opened"), ("ts", J.str "A"), ("task_id", J.str "T1"),
        ("claim", J.str "x")]] []).cards "g" "T1"
      { task_id := "T1", title := "x", status := "backlog", priority := "medium",
        updated_at := "A", updated_seq := 1, latest_snapshot_id := none,
        unread_directive_count := 0, provisional := false }
      (List.Perm.refl _) (by decide)
  · exact (board_status_priority_valid.2.1 _
      [("type", J.str "set_status"), ("task_id", J.str "T1"),
        ("payload", J.obj [("status", J.str "banana")])] 1 "banana"
      (by decide) (by decide) (by decide) "T1"
      { task_id := "T1", title := "x", status := "backlog", priority := "medium",
        updated_at := "A", updated_seq := 1, latest_snapshot_id := none, provisional := false }
      (by decide)).1
  · exact board_status_priority_valid.2.2.1 _
      [("type", J.str "open_task"), ("task_id", J.str "T1"),
        ("payload", J.obj [("status", J.str "banana")])] 1 "banana"
      (by decide) (by decide) (by decide) "T1"
      { task_id := "T1", title := "x", status := "backlog", priority := "medium",
        updated_at := "A", updated_seq := 1, latest_snapshot_id := none, provisional := false }
      (by decide)
  · exact board_status_priority_valid.2.2.2 _
      [("type", J.str "open_task"), ("task_id", J.str "T1"),
        ("payload", J.obj [("priority", J.str "mega")])] 1 "mega"
      (by decide) (by decide) (by decide) "T1"
      { task_id := "T1", title := "x", status := "backlog", priority := "medium",
        updated_at := "A", updated_seq := 1, latest_snapshot_id := none, provisional := false }
      (by decide)

/-! Full acknowledgement followed by fold (claim C4). -/

theorem openTaskCards_contains (cards : List (String × Card)) (d : Obj) (ts : String)
    (seq : Int) (t : String) (htask : getStr d "task_id" = some t) (h0 : t ≠ "") :
    (lookupA (openTaskCards cards d ts seq) t).isSome = true := by
  unfold openTaskCards
  rw [htask]
  dsimp only
  rw [if_neg h0, lookupA_insertA_self]
  rfl

theorem placeholderCards_contains (cards : List (String × Card)) (d : Obj)
    (t : String) (htask : getStr d "task_id" = some t) (h0 : t ≠ "") :
    (lookupA (placeholderCards cards d) t).isSome = true := by
  unfold placeholderCards
  rw [htask]
  dsimp only
  rw [if_neg h0]
  split
  · next hcont => exact hcont
  · rw [lookupA_insertA_self]
    rfl

theorem controlTail_all_acked (st : FState) (d : Obj) (seq : Int) (C2 : List (String × Card))
    (hcont : ∀ t, getStr d "task_id" = some t → t ≠ "" → (lookupA C2 t).isSome = true)
    (hacked : (getStr d "id").getD "" ≠ "" → (getStr d "id").getD "" ∈ st.acked) :
    (controlTail st d seq C2).unread = st.unread ∧
    (controlTail st d seq C2).lastAckSeq =
      (if ((getStr d "id").getD "" ≠ "" ∧ (getStr d "task_id").getD "" ≠ "")
        then max st.lastAckSeq seq else st.lastAckSeq) := by
  unfold controlTail
  cases htask : getStr d "task_id" with
  | none =>
    constructor
    · rfl
    · rw [if_neg (by simp)]
  | some t =>
    dsimp only
    by_cases h0 : t = ""
    · rw [if_pos h0]
      constructor
      · rfl
      · rw [if_neg (by simp [h0])]
    · rw [if_neg h0]
      have hsome := hcont t htask h0
      cases hl : lookupA C2 t with
      | none =>
        rw [hl] at hsome
        simp at hsome
      | some card =>
        dsimp only
        cases hid : getStr d "id" with
        | none =>
          constructor
          · rfl
          · rw [if_neg (by simp)]
        | some i =>
          dsimp only
          by_cases hi : i = ""
          · rw [if_pos hi]
            constructor
            · rfl
            · rw [if_neg (by simp [hi])]
          · have hmem : i ∈ st.acked := by
              have h1 := hacked (by rw [hid]; exact hi)
              rw [hid] at h1
              exact h1
            rw [if_neg hi, if_pos hmem]
            constructor
            · rfl
            · rw [if_pos (by simp [hi, h0])]

theorem control_step_all_acked (st : FState) (d : Obj) (seq : Int)
    (hacked : (getStr d "id").getD "" ≠ "" → (getStr d "id").getD "" ∈ st.acked) :
    (control_step st d seq).unread = st.unread ∧
    (control_step st d seq).lastAckSeq =
      (if ((getStr d "id").getD "" ≠ "" ∧ (getStr d "task_id").getD "" ≠ "")
        then max st.lastAckSeq seq else st.lastAckSeq) := by
  unfold control_step
  dsimp only
  apply controlTail_all_acked
  · intro t htask h0
    by_cases hot : (getStr d "type").getD "" = "open_task"
    · rw [if_neg (by simp [hot]), if_pos hot]
      exact openTaskCards_contains st.cards d _ seq t htask h0
    · rw [if_pos hot, if_neg hot]
      exact placeholderCards_contains _ d t htask h0
  · exact hacked

theorem ackableMax_nonneg (l : List Obj) : ∀ seq : Int, 1 ≤ seq → 0 ≤ ackableMax l seq := by
  induction l with
  | nil => intro seq hseq; exact le_refl 0
  | cons d ds ih =>
    intro seq hseq
    unfold ackableMax
    dsimp only
    have h1 := ih (seq + 1) (by omega)
    split
    · exact le_trans (by omega) (le_max_left seq _)
    · exact h1

theorem runControl_all_acked (l : List Obj) : ∀ (st : FState) (seq : Int),
    0 ≤ st.lastAckSeq → 1 ≤ seq →
    (∀ d ∈ l, (getStr d "id").getD "" ≠ "" → (getStr d "id").getD "" ∈ st.acked) →
    (runSteps control_step st seq l).unread = st.unread ∧
    (runSteps control_step st seq l).lastAckSeq = max st.lastAckSeq (ackableMax l seq) := by
  induction l with
  | nil =>
    intro st seq hpos hseq hall
    constructor
    · rfl
    · show st.lastAckSeq = max st.lastAckSeq (ackableMax [] seq)
      unfold ackableMax
      omega
  | cons d ds ih =>
    intro st seq hpos hseq hall
    rw [runSteps_cons]
    have hstep := control_step_all_acked st d seq (hall d (List.mem_cons_self d ds))
    have hall' : ∀ d' ∈ ds, (getStr d' "id").getD "" ≠ "" →
        (getStr d' "id").getD "" ∈ (control_step st d seq).acked := by
      intro d' hd' hne
      rw [control_step_acked]
      exact hall d' (List.mem_cons_of_mem _ hd') hne
    have hpos' : 0 ≤ (control_step st d seq).lastAckSeq := by
      rw [hstep.2]
      split
      · exact le_trans hpos (le_max_left _ _)
      · exact hpos
    have ih' := ih (control_step st d seq) (seq + 1) hpos' (by omega) hall'
    refine ⟨ih'.1.trans hstep.1, ?_⟩
    rw [ih'.2, hstep.2]
    have hcons : ackableMax (d :: ds) seq =
        (if (getStr d "id").getD "" ≠ "" ∧ (getStr d "task_id").getD "" ≠ ""
          then max seq (ackableMax ds (seq + 1)) else ackableMax ds (seq + 1)) := rfl
    rw [hcons]
    split
    · rw [max_assoc]
    · rfl

theorem mem_ackIdStep (acc : List String) (rec : Obj) (i : String) (h : i ∈ ackIdStep acc rec) :
    i ∈ acc ∨ ((getStr rec "type").getD "" = "ack_directive" ∧
      meta_directive_id rec = some i ∧ i ≠ "") := by
  unfold ackIdStep at h
  split at h
  · next hty =>
    split at h
    · next m hm =>
      split at h
      · next did hdid =>
        split at h
        · exact Or.inl h
        · next hne =>
          rcases List.mem_insert_iff.mp h with rfl | h'
          · refine Or.inr ⟨hty, ?_, hne⟩
            unfold meta_directive_id
            rw [hm]
            exact hdid
          · exact Or.inl h'
      · exact Or.inl h
    · exact Or.inl h
  · exact Or.inl h

theorem mem_foldl_ackIdStep (l : List Obj) : ∀ (acc : List String) (i : String),
    i ∈ l.foldl ackIdStep acc →
    i ∈ acc ∨ ∃ rec ∈ l, (getStr rec "type").getD "" = "ack_directive" ∧
      meta_directive_id rec = some i ∧ i ≠ "" := by
  induction l with
  | nil => intro acc i h; exact Or.inl h
  | cons r rs ih =>
    intro acc i h
    rw [List.foldl_cons] at h
    rcases ih _ _ h with h' | ⟨rec, hrec, hp⟩
    · rcases mem_ackIdStep _ _ _ h' with h'' | hp
      · exact Or.inl h''
      · exact Or.inr ⟨r, List.mem_cons_self _ _, hp⟩
    · exact Or.inr ⟨rec, List.mem_cons_of_mem _ hrec, hp⟩

theorem selectToAck_zero (l : List Obj) (acked : List String) : ∀ count : Nat,
    selectToAck l acked 0 count =
      l.filter (fun d =>
        decide (¬((getStr d "id").getD "" = "" ∨ (getStr d "id").getD "" ∈ acked))) := by
  induction l with
  | nil => intro count; rfl
  | cons d ds ih =>
    intro count
    unfold selectToAck
    dsimp only
    by_cases hc : (getStr d "id").getD "" = "" ∨ (getStr d "id").getD "" ∈ acked
    · rw [if_pos hc, ih count, List.filter_cons_of_neg (by simp [hc])]
    · rw [if_neg hc, if_neg (by simp), List.filter_cons_of_pos (by simp [hc]), ih (count + 1)]

theorem mem_mk_receipts (l : List Obj) : ∀ (n : Nat) (actor nowTs : String)
    (idGen : Nat → String) (d : Obj), d ∈ l →
    ∃ rec ∈ mk_receipts l n actor nowTs idGen,
      (getStr rec "type").getD "" = "ack_directive" ∧
      meta_directive_id rec = some ((getStr d "id").getD "") := by
  induction l with
  | nil => intro n actor nowTs idGen d h; cases h
  | cons d0 ds ih =>
    intro n actor nowTs idGen d hd
    rcases List.mem_cons.mp hd with rfl | hd'
    · exact ⟨mk_receipt d (idGen n) nowTs actor, List.mem_cons_self _ _, rfl, rfl⟩
    · obtain ⟨rec, hrec, h1, h2⟩ := ih (n + 1) actor nowTs idGen d hd'
      exact ⟨rec, List.mem_cons_of_mem _ hrec, h1, h2⟩

/-- Claim C4 (amended, corrected): ack-directives with limit 0 (not dry run)
followed by fold empties unread_directives, and last_ack_control_seq equals
the maximum sequence number of the control records that carry both a
non-empty id and a non-empty task_id (records with an id but no task never
update the cursor). -/
theorem ack_all_then_fold (ledger control : List Obj) (actor nowTs : String)
    (idGen : Nat → String) (enum : List (String × Card)) (now : String) :
    (foldR (ledger ++ ack_directives ledger control 0 actor nowTs idGen) control enum
      now).unread_directives = [] ∧
    (foldR (ledger ++ ack_directives ledger control 0 actor nowTs idGen) control enum
      now).last_ack_control_seq = ackableMax control 1 := by
  have hall : ∀ d ∈ control, (getStr d "id").getD "" ≠ "" →
      (getStr d "id").getD "" ∈ (runSteps ledger_step initFState 1
        (ledger ++ ack_directives ledger control 0 actor nowTs idGen)).acked := by
    intro d hd hne
    by_cases hin : (getStr d "id").getD "" ∈ read_acknowledged_directive_ids ledger
    · rcases mem_foldl_ackIdStep ledger [] _ hin with h0 | ⟨rec, hrec, hty, hmid, hne'⟩
      · cases h0
      · exact runLedger_ack_sets _ initFState 1 rec _ (List.mem_append_left _ hrec) hty hmid hne
    · have hdsel : d ∈ selectToAck control (read_acknowledged_directive_ids ledger) 0 0 := by
        rw [selectToAck_zero]
        exact List.mem_filter.mpr ⟨hd, by simp [hne, hin]⟩
      obtain ⟨rec, hrec, hty, hmid⟩ := mem_mk_receipts _ 0 actor nowTs idGen d hdsel
      exact runLedger_ack_sets _ initFState 1 rec _ (List.mem_append_right _ hrec) hty hmid hne
  have hunread : (runSteps ledger_step initFState 1
      (ledger ++ ack_directives ledger control 0 actor nowTs idGen)).unread = [] :=
    runLedger_unread _ _ _
  have hlast : (runSteps ledger_step initFState 1
      (ledger ++ ack_directives ledger control 0 actor nowTs idGen)).lastAckSeq = 0 :=
    runLedger_lastAckSeq _ _ _
  have hrun := runControl_all_acked control _ 1 (by rw [hlast]) (by norm_num) hall
  have hnn : 0 ≤ ackableMax control 1 := ackableMax_nonneg control 1 (by norm_num)
  constructor
  · exact hrun.1.trans hunread
  · show (runSteps control_step _ 1 control).lastAckSeq = ackableMax control 1
    rw [hrun.2, hlast]
    omega

/-- Counterexample to claim C4 as stated: one control record with id D1 but
no task_id. Full acknowledgement then fold leaves last_ack_control_seq at 0,
while the claim's quantity (the max seq over records with a non-empty id,
regardless of task) is 1. -/
theorem ack_all_counterexample :
    (foldR ([] ++ ack_directives []
        [[("type", J.str "note"), ("id", J.str "D1")]] 0 "agent" "now" (fun _ => "L1"))
      [[("type", J.str "note"), ("id", J.str "D1")]] [] "g").last_ack_control_seq = 0 ∧
    idMax [[("type", J.str "note"), ("id", J.str "D1")]] 1 = 1 ∧
    (0 : Int) ≠ 1 := by
  refine ⟨?_, by decide, by decide⟩
  decide

/-! Determinism of fold up to hash-map iteration order (claim C1). -/

theorem cmpBefore_iff (a b : CardOut) : cmpBefore a b = true ↔
    (priority_rank b.priority < priority_rank a.priority ∨
      (priority_rank a.priority = priority_rank b.priority ∧ b.updated_seq < a.updated_seq)) := by
  unfold cmpBefore
  simp [Bool.or_eq_true, Bool.and_eq_true, decide_eq_true_eq]

theorem cmpBefore_false_iff (a b : CardOut) : cmpBefore a b = false ↔
    ¬ (priority_rank b.priority < priority_rank a.priority ∨
      (priority_rank a.priority = priority_rank b.priority ∧ b.updated_seq < a.updated_seq)) := by
  rw [← cmpBefore_iff]
  cases h : cmpBefore a b <;> simp

theorem cmpBefore_asymm (a b : CardOut) (h : cmpBefore a b = true) : cmpBefore b a = false := by
  rw [cmpBefore_iff] at h
  rw [cmpBefore_false_iff]
  omega

theorem cmpBefore_false_trans (x y z : CardOut) (h1 : cmpBefore z y = false)
    (h2 : cmpBefore y x = false) : cmpBefore z x = false := by
  rw [cmpBefore_false_iff] at h1 h2 ⊢
  omega

theorem insSorted_perm (x : CardOut) (l : List CardOut) : (insSorted x l).Perm (x :: l) := by
  induction l with
  | nil => exact List.Perm.refl _
  | cons y l ih =>
    unfold insSorted
    split
    · exact (ih.cons y).trans (List.Perm.swap x y l)
    · exact List.Perm.refl _

theorem insSort_perm (l : List CardOut) : (insSort l).Perm l := by
  induction l with
  | nil => exact List.Perm.refl _
  | cons x l ih =>
    unfold insSort
    exact (insSorted_perm x (insSort l)).trans (ih.cons x)

theorem insSorted_sorted (x : CardOut) (l : List CardOut) (h : colOrdered l) :
    colOrdered (insSorted x l) := by
  induction l with
  | nil => exact List.pairwise_singleton _ _
  | cons y l ih =>
    unfold insSorted
    rcases List.pairwise_cons.mp h with ⟨hy, hl⟩
    by_cases hc : cmpBefore y x = true
    · rw [if_pos hc]
      refine List.pairwise_cons.mpr ⟨?_, ih hl⟩
      intro z hz
      rcases List.mem_cons.mp ((insSorted_perm x l).mem_iff.mp hz) with rfl | hz'
      · exact cmpBefore_asymm y z hc
      · exact hy z hz'
    · rw [if_neg hc]
      have hcf : cmpBefore y x = false := by
        cases hcb : cmpBefore y x
        · rfl
        · exact absurd hcb hc
      refine List.pairwise_cons.mpr ⟨?_, h⟩
      intro z hz
      rcases List.mem_cons.mp hz with rfl | hz'
      · exact hcf
      · exact cmpBefore_false_trans x y z (hy z hz') hcf

theorem insSort_sorted (l : List CardOut) : colOrdered (insSort l) := by
  induction l with
  | nil => exact List.Pairwise.nil
  | cons x l ih =>
    unfold insSort
    exact insSorted_sorted x (insSort l) ih

theorem ledger_step_nodup (st : FState) (r : Obj) (seq : Int)
    (h : keysNodup st.cards) : keysNodup (ledger_step st r seq).cards := by
  unfold ledger_step
  dsimp only
  repeat' split
  all_goals first | exact h | exact keysNodup_insertA _ _ _ h

theorem openTaskCards_nodup (cards : List (String × Card)) (d : Obj) (ts : String)
    (seq : Int) (h : keysNodup cards) : keysNodup (openTaskCards cards d ts seq) := by
  unfold openTaskCards
  repeat' split
  all_goals first | exact h | exact keysNodup_insertA _ _ _ h

theorem placeholderCards_nodup (cards : List (String × Card)) (d : Obj)
    (h : keysNodup cards) : keysNodup (placeholderCards cards d) := by
  unfold placeholderCards
  repeat' split
  all_goals first | exact h | exact keysNodup_insertA _ _ _ h

theorem controlTail_nodup (st : FState) (d : Obj) (seq : Int) (C2 : List (String × Card))
    (h : keysNodup C2) : keysNodup (controlTail st d seq C2).cards := by
  unfold controlTail
  dsimp only
  repeat' split
  all_goals first | exact h | exact keysNodup_insertA _ _ _ h

theorem control_step_nodup (st : FState) (d : Obj) (seq : Int)
    (h : keysNodup st.cards) : keysNodup (control_step st d seq).cards := by
  unfold control_step
  dsimp only
  apply controlTail_nodup
  by_cases hot : (getStr d "type").getD "" = "open_task"
  · rw [if_neg (by simp [hot]), if_pos hot]
    exact openTaskCards_nodup _ _ _ _ h
  · rw [if_pos hot, if_neg hot]
    exact placeholderCards_nodup _ _ h

theorem runLedger_nodup (l : List Obj) : ∀ (st : FState) (seq : Int),
    keysNodup st.cards → keysNodup (runSteps ledger_step st seq l).cards := by
  induction l with
  | nil => intro st seq h; exact h
  | cons r rs ih =>
    intro st seq h
    rw [runSteps_cons]
    exact ih _ _ (ledger_step_nodup st r seq h)

theorem runControl_nodup (l : List Obj) : ∀ (st : FState) (seq : Int),
    keysNodup st.cards → keysNodup (runSteps control_step st seq l).cards := by
  induction l with
  | nil => intro st seq h; exact h
  | cons d ds ih =>
    intro st seq h
    rw [runSteps_cons]
    exact ih _ _ (control_step_nodup st d seq h)

theorem cardTable_nodup (ledger control : List Obj) :
    keysNodup (cardTable ledger control).cards := by
  unfold cardTable
  apply runControl_nodup
  apply runLedger_nodup
  exact List.nodup_nil

/-- Claim C1 (amended, corrected): two fold runs over the same logs agree on
cards (as a map), on unread_directives, and on the last-ack cursors; each
column holds the same cards in both runs (a permutation) and is sorted by
(priority rank, updated_seq) descending in each — but the relative order of
cards tied on both keys follows the hash-map iteration order, which may
differ between the two runs. -/
theorem fold_deterministic (ledger control : List Obj) (e1 e2 : List (String × Card))
    (n1 n2 : String) (h1 : e1.Perm (cardTable ledger control).cards)
    (h2 : e2.Perm (cardTable ledger control).cards) :
    (∀ t, lookupA (foldR ledger control e1 n1).cards t =
      lookupA (foldR ledger control e2 n2).cards t) ∧
    (foldR ledger control e1 n1).unread_directives =
      (foldR ledger control e2 n2).unread_directives ∧
    (foldR ledger control e1 n1).last_ack_directive_id =
      (foldR ledger control e2 n2).last_ack_directive_id ∧
    (foldR ledger control e1 n1).last_ack_directive_ts =
      (foldR ledger control e2 n2).last_ack_directive_ts ∧
    (foldR ledger control e1 n1).last_ack_control_seq =
      (foldR ledger control e2 n2).last_ack_control_seq ∧
    (∀ s, ((lookupA (foldR ledger control e1 n1).columns s).getD []).Perm
        ((lookupA (foldR ledger control e2 n2).columns s).getD []) ∧
      colOrdered ((lookupA (foldR ledger control e1 n1).columns s).getD [])) := by
  have hnodup := cardTable_nodup ledger control
  have hn1 : keysNodup e1 := ((h1.map Prod.fst).nodup_iff).mpr hnodup
  have h12 : e1.Perm e2 := h1.trans h2.symm
  refine ⟨?_, rfl, rfl, rfl, rfl, ?_⟩
  · intro t
    simp only [foldR, mkBoard]
    rw [lookupA_map_snd, lookupA_map_snd, lookupA_perm h12 hn1 t]
  · intro s
    simp only [foldR, mkBoard]
    rw [lookupA_of_keys, lookupA_of_keys]
    by_cases hs : s ∈ STATUSES
    · rw [if_pos hs, if_pos hs]
      dsimp only [Option.getD_some]
      constructor
      · refine (insSort_perm _).trans (List.Perm.trans ?_ (insSort_perm _).symm)
        exact (h12.map _).filterMap _
      · exact insSort_sorted _
    · rw [if_neg hs, if_neg hs]
      exact ⟨List.Perm.refl _, List.Pairwise.nil⟩

/-- Witness for fold_deterministic at the empty workspace. -/
theorem fold_deterministic_witness :
    (∀ t, lookupA (foldR [] [] [] "a").cards t = lookupA (foldR [] [] [] "b").cards t) ∧
    (foldR [] [] [] "a").unread_directives = (foldR [] [] [] "b").unread_directives ∧
    (foldR [] [] [] "a").last_ack_directive_id = (foldR [] [] [] "b").last_ack_directive_id ∧
    (foldR [] [] [] "a").last_ack_directive_ts = (foldR [] [] [] "b").last_ack_directive_ts ∧
    (foldR [] [] [] "a").last_ack_control_seq = (foldR [] [] [] "b").last_ack_control_seq ∧
    (∀ s, ((lookupA (foldR [] [] [] "a").columns s).getD []).Perm
        ((lookupA (foldR [] [] [] "b").columns s).getD []) ∧
      colOrdered ((lookupA (foldR [] [] [] "a").columns s).getD [])) :=
  fold_deterministic [] [] [] [] "a" "b" (by decide) (by decide)

/-- Counterexample to claim C1 as stated: with two cards tied on priority and
updated_seq, the backlog column's order depends on the iteration order of the
card map, so two runs of fold need not produce equal columns. -/
theorem fold_deterministic_claim_counterexample :
    ¬ (∀ (ledger control : List Obj) (e1 e2 : List (String × Card)) (n1 n2 : String),
        e1.Perm (cardTable ledger control).cards →
        e2.Perm (cardTable ledger control).cards →
        (∀ s, lookupA (foldR ledger control e1 n1).columns s =
          lookupA (foldR ledger control e2 n2).columns s) ∧
        (∀ t, lookupA (foldR ledger control e1 n1).cards t =
          lookupA (foldR ledger control e2 n2).cards t) ∧
        (∀ t, lookupA (foldR ledger control e1 n1).unread_directives t =
          lookupA (foldR ledger control e2 n2).unread_directives t)) := by
  intro h
  have h2 := (h []
    [[("type", J.str "note"), ("task_id", J.str "a")],
     [("type", J.str "note"), ("task_id", J.str "b")]]
    [("a", placeholderCard "a"), ("b", placeholderCard "b")]
    [("b", placeholderCard "b"), ("a", placeholderCard "a")]
    "n" "n" (by decide) (by decide)).1 "backlog"
  exact absurd h2 (by decide)

/-- Witness for join_records_sid_before_capacity at a concrete join and
follow-up set_offer. -/
theorem join_records_sid_before_capacity_witness :
    ((connStep [] initConnSt 0
      { isText := true, len := 4, refill := true, parsed := some (CMsg.join 1 ['a']), now := 0,
        sendOk := fun _ => true }).conn.joined_sid = some ['a']) ∧
    (SMsg.errorMsg 1 "join required" ∉
      (connStep []
        (connStep [] initConnSt 0
          { isText := true, len := 4, refill := true, parsed := some (CMsg.join 1 ['a']), now := 0,
            sendOk := fun _ => true }).conn 0
        { isText := true, len := 4, refill := true,
          parsed := some (CMsg.set_offer 1 ['a'] ['x']), now := 0,
          sendOk := fun _ => true }).replies) := by
  have h := join_records_sid_before_capacity [] [] initConnSt 0 0
    { isText := true, len := 4, refill := true, parsed := some (CMsg.join 1 ['a']), now := 0,
      sendOk := fun _ => true }
    { isText := true, len := 4, refill := true,
      parsed := some (CMsg.set_offer 1 ['a'] ['x']), now := 0, sendOk := fun _ => true }
    ['a'] ['x'] (by decide) (by decide) (by decide) (by decide) (by decide)
  exact ⟨h.1, h.2 (by decide) (by decide) (by decide) (by decide)⟩

/-! Lemmas for the relay-capacity claim: the constructed sids are valid and
pairwise distinct, and the insertion length laws of the session map. -/

theorem hexChar_inj_lt : ∀ a, a < 16 → ∀ b, b < 16 → hexChar a = hexChar b → a = b := by
  decide

theorem hexChar_hexdigit : ∀ d, d < 16 → isAsciiHexdigit (hexChar d) = true := by
  decide

theorem map_hexChar_inj : ∀ (l1 l2 : List Nat), (∀ x ∈ l1, x < 16) → (∀ x ∈ l2, x < 16) →
    l1.map hexChar = l2.map hexChar → l1 = l2
  | [], [], _, _, _ => rfl
  | [], _ :: _, _, _, h => by simp at h
  | _ :: _, [], _, _, h => by simp at h
  | a :: l1, b :: l2, h1, h2, h => by
    simp only [List.map_cons, List.cons.injEq] at h
    have hab := hexChar_inj_lt a (h1 a (List.mem_cons_self a l1))
      b (h2 b (List.mem_cons_self b l2)) h.1
    have htl := map_hexChar_inj l1 l2 (fun x hx => h1 x (List.mem_cons_of_mem _ hx))
      (fun x hx => h2 x (List.mem_cons_of_mem _ hx)) h.2
    rw [hab, htl]

theorem mkSid_inj (m n : Nat) (h : mkSid m = mkSid n) : m = n := by
  unfold mkSid at h
  simp only [List.cons.injEq, true_and] at h
  have hd := map_hexChar_inj _ _ (fun x hx => Nat.digits_lt_base (by norm_num) hx)
    (fun x hx => Nat.digits_lt_base (by norm_num) hx) h
  have h2 := congrArg (Nat.ofDigits 16) hd
  rwa [Nat.ofDigits_digits, Nat.ofDigits_digits] at h2

theorem mkSid_hex (n : Nat) : ∀ c ∈ mkSid n, isAsciiHexdigit c = true := by
  intro c hc
  unfold mkSid at hc
  rcases List.mem_cons.mp hc with h | h
  · subst h
    decide
  · obtain ⟨d, hd, rfl⟩ := List.mem_map.mp h
    exact hexChar_hexdigit d (Nat.digits_lt_base (by norm_num) hd)

theorem hexdigit_not_whitespace (c : Char) (h : isAsciiHexdigit c = true) :
    isRustWhitespace c = false := by
  unfold isAsciiHexdigit at h
  unfold isRustWhitespace
  dsimp only
  simp only [Bool.or_eq_true, decide_eq_true_eq] at h
  simp only [Bool.or_eq_false_iff, decide_eq_false_iff_not]
  omega

theorem dropWhile_eq_self_of_false (p : Char → Bool) (l : List Char)
    (h : ∀ c ∈ l, p c = false) : l.dropWhile p = l := by
  cases l with
  | nil => rfl
  | cons c cs =>
    rw [List.dropWhile_cons]
    simp [h c (List.mem_cons_self c cs)]

theorem rustTrim_eq_self (l : List Char) (h : ∀ c ∈ l, isRustWhitespace c = false) :
    rustTrim l = l := by
  unfold rustTrim
  rw [dropWhile_eq_self_of_false _ _ h]
  rw [dropWhile_eq_self_of_false _ _ (fun c hc => h c (List.mem_reverse.mp hc))]
  exact List.reverse_reverse l

theorem rustTrim_mkSid (n : Nat) : rustTrim (mkSid n) = mkSid n :=
  rustTrim_eq_self _ (fun c hc => hexdigit_not_whitespace c (mkSid_hex n c hc))

theorem mkSid_byteLen (n : Nat) (h : n ≤ 10000) : byteLen (mkSid n) ≤ MAX_SID_CHARS := by
  rw [byteLen_of_hex _ (mkSid_hex n)]
  unfold mkSid
  simp only [List.length_cons, List.length_map]
  have h1 := Nat.le_digits_len_le 16 n 10000 h
  have h2 : (Nat.digits 16 10000).length = 4 := by norm_num
  simp only [MAX_SID_CHARS]
  omega

theorem mkSid_valid (n : Nat) (h : n ≤ 10000) : validate_sid (mkSid n) = true := by
  rw [validate_sid_true_iff]
  rw [rustTrim_mkSid]
  refine ⟨by simp [mkSid], mkSid_byteLen n h, mkSid_hex n⟩

theorem lookup_range_mkSid_none (n m : Nat) (h : n ≤ m) :
    lookupA ((List.range n).map (fun i => (mkSid i, joinedSess))) (mkSid m) = none := by
  rw [lookupA_eq_none_iff]
  intro p hp
  obtain ⟨i, hi, rfl⟩ := List.mem_map.mp hp
  intro he
  have him := mkSid_inj i m he
  have hi' := List.mem_range.mp hi
  omega

theorem insertA_append_key {κ α : Type} [DecidableEq κ] (l : List (κ × α)) (k : κ) (v0 v : α)
    (h : lookupA l k = none) : insertA (l ++ [(k, v0)]) k v = l ++ [(k, v)] := by
  induction l with
  | nil => simp [insertA]
  | cons p rest ih =>
    obtain ⟨k0, w⟩ := p
    rw [lookupA_cons] at h
    by_cases hk : k0 = k
    · simp [if_pos hk] at h
    · simp only [if_neg hk] at h
      simp only [List.cons_append, insertA, if_neg hk]
      exact congrArg (List.cons (k0, w)) (ih h)

theorem length_insertA_contains {κ α : Type} [DecidableEq κ] (l : List (κ × α)) (k : κ) (v : α)
    (h : containsA l k = true) : (insertA l k v).length = l.length := by
  have hkeys := keys_insertA_contains l k v h
  have h1 := congrArg List.length hkeys
  simpa using h1

theorem length_insertA_absent {κ α : Type} [DecidableEq κ] (l : List (κ × α)) (k : κ) (v : α)
    (h : lookupA l k = none) : (insertA l k v).length = l.length + 1 := by
  rw [insertA_absent l k v h]
  simp

theorem containsA_insertA_self {κ α : Type} [DecidableEq κ] (l : List (κ × α)) (k : κ) (v : α) :
    containsA (insertA l k v) k = true := by
  unfold containsA
  rw [lookupA_insertA_self]
  rfl

/-! Reductions of the join and set_offer arms on the concrete frames of the
reachability construction. -/

theorem stepJoin_fresh (sessions : Sessions) (cs : ConnSt) (c : Nat) (f : Frame)
    (sid : List Char) (hval : validate_sid sid = true)
    (hlen : sessions.length < MAX_SESSIONS)
    (hnone : lookupA sessions sid = (none : Option Sess)) :
    stepJoin sessions cs c f sid =
      ([SMsg.stateMsg 1 sid false false none none],
        { cs with joined_sid := some sid },
        sessions ++ [(sid, { created_at := f.now, offer := none, answer := none,
                             clients := [c] })]) := by
  unfold stepJoin
  rw [if_neg (by simp [hval])]
  dsimp only
  rw [if_neg (fun hb => absurd hb.1 (not_le.mpr hlen))]
  simp only [lookupS, insertS]
  rw [hnone]
  simp only [Option.getD_none]
  rw [if_neg (by simp [freshSess, MAX_CLIENTS_PER_SESSION])]
  rw [insertA_absent sessions sid (freshSess f.now) hnone]
  rw [insertA_append_key sessions sid (freshSess f.now) _ hnone]
  rfl

theorem stepJoin_busy (sessions : Sessions) (cs : ConnSt) (c : Nat) (f : Frame)
    (sid : List Char) (hval : validate_sid sid = true)
    (hlen : MAX_SESSIONS ≤ sessions.length) (hnc : containsS sessions sid = false) :
    stepJoin sessions cs c f sid =
      ([SMsg.errorMsg 1 "server busy"], { cs with joined_sid := some sid }, sessions) := by
  unfold stepJoin
  rw [if_neg (by simp [hval])]
  dsimp only
  rw [if_pos ⟨hlen, by simp [hnc]⟩]

theorem stepSetOffer_fresh (sessions : Sessions) (cs : ConnSt) (c : Nat) (f : Frame)
    (sid offer : List Char) (hval : validate_sid sid = true)
    (hj : cs.joined_sid = some sid) (hsdp : validate_sdp_code offer = true)
    (hnone : lookupA sessions sid = (none : Option Sess)) :
    stepSetOffer sessions cs c f sid offer =
      ([], cs, sessions ++ [(sid, { created_at := f.now, offer := some offer, answer := none,
                                    clients := [] })]) := by
  unfold stepSetOffer
  rw [if_neg (by simp [hval])]
  rw [if_neg (by simp [hj])]
  rw [if_neg (by simp [hsdp])]
  simp only [lookupS, insertS]
  rw [hnone]
  simp only [Option.getD_none]
  rw [insertA_absent sessions sid _ hnone]
  rfl

theorem connStep_joinFrame (sessions : Sessions) (cs : ConnSt) (n : Nat) :
    connStep sessions cs 0 (joinFrame n) =
      { replies := (stepJoin sessions { cs with rate_budget := 39 } 0 (joinFrame n) (mkSid n)).1,
        brk := false,
        conn := (stepJoin sessions { cs with rate_budget := 39 } 0 (joinFrame n) (mkSid n)).2.1,
        sessions :=
          (stepJoin sessions { cs with rate_budget := 39 } 0 (joinFrame n) (mkSid n)).2.2 } :=
  rfl

theorem connStep_offerFrame (sessions : Sessions) (cs : ConnSt) (n : Nat) :
    connStep sessions cs 0 (offerFrame n) =
      { replies := (stepSetOffer sessions { cs with rate_budget := 39 } 0 (offerFrame n)
          (mkSid n) ['x']).1,
        brk := false,
        conn := (stepSetOffer sessions { cs with rate_budget := 39 } 0 (offerFrame n)
          (mkSid n) ['x']).2.1,
        sessions := (stepSetOffer sessions { cs with rate_budget := 39 } 0 (offerFrame n)
          (mkSid n) ['x']).2.2 } :=
  rfl

theorem applyEvent_frame (s : RState) (c : Nat) (f : Frame) (cs : ConnSt)
    (hc : lookupC s.conns c = some cs)
    (hbrk : (connStep s.sessions cs c f).brk = false) :
    applyEvent s (REvent.frame c f) =
      { sessions := (connStep s.sessions cs c f).sessions,
        conns := updateC s.conns c (connStep s.sessions cs c f).conn } := by
  unfold applyEvent
  dsimp only
  rw [hc]
  dsimp only
  rw [hbrk]
  simp

/-! The reachability chain: connection 0 joins mkSid 0 .. mkSid 9999 building
mkRelayState 10000, a further join is refused busy but records joined_sid, and
the following set_offer creates an 10001-st session. -/

theorem mkRelayState_sessions (n : Nat) :
    (mkRelayState n).sessions = (List.range n).map (fun i => (mkSid i, joinedSess)) := rfl

theorem applyEvent_join (n : Nat) (h : n < 10000) :
    applyEvent (mkRelayState n) (REvent.frame 0 (joinFrame n)) = mkRelayState (n + 1) := by
  have hval : validate_sid (mkSid n) = true := mkSid_valid n (by omega)
  have hnone : lookupA (mkRelayState n).sessions (mkSid n) = (none : Option Sess) :=
    lookup_range_mkSid_none n n le_rfl
  have hlen : (mkRelayState n).sessions.length < MAX_SESSIONS := by
    simpa [mkRelayState, MAX_SESSIONS] using h
  have hcs : lookupC (mkRelayState n).conns 0 =
      some { joined_sid := if n = 0 then none else some (mkSid (n - 1)),
             rate_budget := if n = 0 then 40 else 39 } := rfl
  have hout : connStep (mkRelayState n).sessions
      { joined_sid := if n = 0 then none else some (mkSid (n - 1)),
        rate_budget := if n = 0 then 40 else 39 } 0 (joinFrame n) =
      { replies := [SMsg.stateMsg 1 (mkSid n) false false none none],
        brk := false,
        conn := { joined_sid := some (mkSid n), rate_budget := 39 },
        sessions := (mkRelayState n).sessions ++ [(mkSid n, joinedSess)] } := by
    rw [connStep_joinFrame]
    rw [stepJoin_fresh _ _ _ _ _ hval hlen hnone]
    rfl
  rw [applyEvent_frame _ _ _ _ hcs (by rw [hout])]
  rw [hout]
  dsimp only
  unfold mkRelayState updateC
  dsimp only
  rw [List.range_succ, List.map_append]
  simp

theorem reach_mkRelayState : ∀ n, n ≤ MAX_SESSIONS → Reach (mkRelayState n) := by
  intro n
  induction n with
  | zero =>
    intro _
    have h0 : applyEvent initRState (REvent.connect 0) = mkRelayState 0 := rfl
    exact h0 ▸ Reach.step initRState (REvent.connect 0) Reach.init
  | succ m ih =>
    intro hm
    have hM : MAX_SESSIONS = 10000 := rfl
    have hj := applyEvent_join m (by omega)
    exact hj ▸ Reach.step (mkRelayState m) (REvent.frame 0 (joinFrame m)) (ih (by omega))

theorem applyEvent_join_busy :
    applyEvent (mkRelayState MAX_SESSIONS) (REvent.frame 0 (joinFrame MAX_SESSIONS)) =
      busyState := by
  have hval : validate_sid (mkSid MAX_SESSIONS) = true :=
    mkSid_valid _ (by norm_num [MAX_SESSIONS])
  have hnone : lookupA (mkRelayState MAX_SESSIONS).sessions (mkSid MAX_SESSIONS) =
      (none : Option Sess) := by
    rw [mkRelayState_sessions]
    exact lookup_range_mkSid_none MAX_SESSIONS MAX_SESSIONS le_rfl
  have hnc : containsS (mkRelayState MAX_SESSIONS).sessions (mkSid MAX_SESSIONS) = false := by
    unfold containsS containsA
    rw [hnone]
    rfl
  have hlen : MAX_SESSIONS ≤ (mkRelayState MAX_SESSIONS).sessions.length := by
    simp [mkRelayState]
  have hcs : lookupC (mkRelayState MAX_SESSIONS).conns 0 =
      some { joined_sid := if MAX_SESSIONS = 0 then none else some (mkSid (MAX_SESSIONS - 1)),
             rate_budget := if MAX_SESSIONS = 0 then 40 else 39 } := rfl
  have hout : connStep (mkRelayState MAX_SESSIONS).sessions
      { joined_sid := if MAX_SESSIONS = 0 then none else some (mkSid (MAX_SESSIONS - 1)),
        rate_budget := if MAX_SESSIONS = 0 then 40 else 39 } 0 (joinFrame MAX_SESSIONS) =
      { replies := [SMsg.errorMsg 1 "server busy"],
        brk := false,
        conn := { joined_sid := some (mkSid MAX_SESSIONS), rate_budget := 39 },
        sessions := (mkRelayState MAX_SESSIONS).sessions } := by
    rw [connStep_joinFrame]
    rw [stepJoin_busy _ _ _ _ _ hval hlen hnc]
  rw [applyEvent_frame _ _ _ _ hcs (by rw [hout])]
  rw [hout]
  dsimp only
  unfold busyState mkRelayState updateC
  dsimp only
  simp

theorem busyState_eq : busyState =
    { sessions := (mkRelayState MAX_SESSIONS).sessions,
      conns := [(0, { joined_sid := some (mkSid MAX_SESSIONS), rate_budget := 39 })] } := rfl

theorem applyEvent_frame_mk (S : Sessions) (C : List (Nat × ConnSt)) (c : Nat) (f : Frame)
    (cs : ConnSt) (hc : lookupC C c = some cs)
    (hbrk : (connStep S cs c f).brk = false) :
    applyEvent { sessions := S, conns := C } (REvent.frame c f) =
      { sessions := (connStep S cs c f).sessions,
        conns := updateC C c (connStep S cs c f).conn } :=
  applyEvent_frame { sessions := S, conns := C } c f cs hc hbrk

theorem overCap_sessions : overCapState.sessions =
    (mkRelayState MAX_SESSIONS).sessions ++
      [(mkSid MAX_SESSIONS,
        { created_at := 0, offer := some ['x'], answer := none, clients := [] })] := by
  have hval : validate_sid (mkSid MAX_SESSIONS) = true :=
    mkSid_valid _ (by norm_num [MAX_SESSIONS])
  have hnone : lookupA (mkRelayState MAX_SESSIONS).sessions (mkSid MAX_SESSIONS) =
      (none : Option Sess) := by
    rw [mkRelayState_sessions]
    exact lookup_range_mkSid_none MAX_SESSIONS MAX_SESSIONS le_rfl
  have hout : connStep (mkRelayState MAX_SESSIONS).sessions
      { joined_sid := some (mkSid MAX_SESSIONS), rate_budget := 39 } 0
      (offerFrame MAX_SESSIONS) =
      { replies := [], brk := false,
        conn := { joined_sid := some (mkSid MAX_SESSIONS), rate_budget := 39 },
        sessions := (mkRelayState MAX_SESSIONS).sessions ++
          [(mkSid MAX_SESSIONS,
            { created_at := 0, offer := some ['x'], answer := none, clients := [] })] } := by
    rw [connStep_offerFrame]
    rw [stepSetOffer_fresh _ _ _ _ _ _ hval rfl (by decide) hnone]
    rfl
  have hcs :
      lookupC [(0, ({ joined_sid := some (mkSid MAX_SESSIONS), rate_budget := 39 } : ConnSt))] 0 =
        some { joined_sid := some (mkSid MAX_SESSIONS), rate_budget := 39 } := rfl
  unfold overCapState
  rw [applyEvent_join_busy]
  rw [busyState_eq]
  rw [applyEvent_frame_mk _ _ _ _ _ hcs (by rw [hout])]
  rw [hout]

theorem overCap_len : overCapState.sessions.length = MAX_SESSIONS + 1 := by
  rw [overCap_sessions]
  rw [List.length_append, mkRelayState_sessions, List.length_map, List.length_range,
    List.length_singleton]

theorem overCap_reach : Reach overCapState :=
  Reach.step _ _ (Reach.step _ _ (reach_mkRelayState MAX_SESSIONS le_rfl))

/-! The per-session subscriber cap is an invariant of every relay transition,
and the join arm never grows the session map past the session cap. -/

theorem stepJoin_subInv (sessions : Sessions) (cs : ConnSt) (c : Nat) (f : Frame)
    (sid : List Char) (h : ∀ p ∈ sessions, p.2.clients.length ≤ MAX_CLIENTS_PER_SESSION) :
    ∀ p ∈ (stepJoin sessions cs c f sid).2.2,
      p.2.clients.length ≤ MAX_CLIENTS_PER_SESSION := by
  have hentry : ((lookupA sessions sid).getD (freshSess f.now)).clients.length ≤
      MAX_CLIENTS_PER_SESSION := by
    cases hl : lookupA sessions sid with
    | none => simp [freshSess, MAX_CLIENTS_PER_SESSION]
    | some e =>
      simp only [Option.getD_some]
      exact h (sid, e) (mem_of_lookupA hl)
  unfold stepJoin
  simp only [lookupS, insertS]
  by_cases hval : validate_sid sid = false
  · rw [if_pos hval]
    exact h
  rw [if_neg hval]
  by_cases hbusy : MAX_SESSIONS ≤ sessions.length ∧ ¬ containsS sessions sid = true
  · rw [if_pos hbusy]
    exact h
  rw [if_neg hbusy]
  by_cases hfull : MAX_CLIENTS_PER_SESSION ≤
      ((lookupA sessions sid).getD (freshSess f.now)).clients.length
  · rw [if_pos hfull]
    dsimp only
    intro p hp
    rcases mem_insertA hp with he | hp'
    · subst he
      exact hentry
    · exact h p hp'
  · rw [if_neg hfull]
    dsimp only
    intro p hp
    rcases mem_insertA hp with he | hp'
    · subst he
      dsimp only
      rw [List.length_append]
      have hm : MAX_CLIENTS_PER_SESSION = 16 := rfl
      have hlt := Nat.lt_of_not_le hfull
      simp only [List.length_singleton]
      omega
    · rcases mem_insertA hp' with he2 | hp''
      · subst he2
        exact hentry
      · exact h p hp''

theorem stepSetOffer_subInv (sessions : Sessions) (cs : ConnSt) (c : Nat) (f : Frame)
    (sid offer : List Char)
    (h : ∀ p ∈ sessions, p.2.clients.length ≤ MAX_CLIENTS_PER_SESSION) :
    ∀ p ∈ (stepSetOffer sessions cs c f sid offer).2.2,
      p.2.clients.length ≤ MAX_CLIENTS_PER_SESSION := by
  have hentry : ((lookupA sessions sid).getD (freshSess f.now)).clients.length ≤
      MAX_CLIENTS_PER_SESSION := by
    cases hl : lookupA sessions sid with
    | none => simp [freshSess, MAX_CLIENTS_PER_SESSION]
    | some e =>
      simp only [Option.getD_some]
      exact h (sid, e) (mem_of_lookupA hl)
  unfold stepSetOffer
  simp only [lookupS, insertS]
  by_cases h1 : validate_sid sid = false
  · rw [if_pos h1]
    exact h
  rw [if_neg h1]
  by_cases h2 : cs.joined_sid ≠ some sid
  · rw [if_pos h2]
    exact h
  rw [if_neg h2]
  by_cases h3 : validate_sdp_code offer = false
  · rw [if_pos h3]
    exact h
  rw [if_neg h3]
  dsimp only
  intro p hp
  rcases mem_insertA hp with he | hp'
  · subst he
    dsimp only
    exact le_trans (List.length_filter_le _ _) hentry
  · exact h p hp'

theorem stepSetAnswer_subInv (sessions : Sessions) (cs : ConnSt) (c : Nat) (f : Frame)
    (sid answer : List Char)
    (h : ∀ p ∈ sessions, p.2.clients.length ≤ MAX_CLIENTS_PER_SESSION) :
    ∀ p ∈ (stepSetAnswer sessions cs c f sid answer).2.2,
      p.2.clients.length ≤ MAX_CLIENTS_PER_SESSION := by
  have hentry : ((lookupA sessions sid).getD (freshSess f.now)).clients.length ≤
      MAX_CLIENTS_PER_SESSION := by
    cases hl : lookupA sessions sid with
    | none => simp [freshSess, MAX_CLIENTS_PER_SESSION]
    | some e =>
      simp only [Option.getD_some]
      exact h (sid, e) (mem_of_lookupA hl)
  unfold stepSetAnswer
  simp only [lookupS, insertS]
  by_cases h1 : validate_sid sid = false
  · rw [if_pos h1]
    exact h
  rw [if_neg h1]
  by_cases h2 : cs.joined_sid ≠ some sid
  · rw [if_pos h2]
    exact h
  rw [if_neg h2]
  by_cases h3 : validate_sdp_code answer = false
  · rw [if_pos h3]
    exact h
  rw [if_neg h3]
  dsimp only
  intro p hp
  rcases mem_insertA hp with he | hp'
  · subst he
    dsimp only
    exact le_trans (List.length_filter_le _ _) hentry
  · exact h p hp'

theorem stepGetState_sessions (sessions : Sessions) (cs : ConnSt) (c : Nat) (f : Frame)
    (sid : List Char) : (stepGetState sessions cs c f sid).2.2 = sessions := by
  unfold stepGetState
  by_cases h1 : validate_sid sid = false
  · rw [if_pos h1]
  · rw [if_neg h1]
    by_cases h2 : cs.joined_sid ≠ some sid
    · rw [if_pos h2]
    · rw [if_neg h2]
      cases lookupS sessions sid <;> rfl

theorem dispatch_subInv (sessions : Sessions) (cs : ConnSt) (c : Nat) (f : Frame) (cmd : CMsg)
    (h : ∀ p ∈ sessions, p.2.clients.length ≤ MAX_CLIENTS_PER_SESSION) :
    ∀ p ∈ (dispatch sessions cs c f cmd).2.2,
      p.2.clients.length ≤ MAX_CLIENTS_PER_SESSION := by
  cases cmd with
  | join v sid =>
    simp only [dispatch]
    by_cases hv : v = 1
    · rw [if_pos hv]
      exact stepJoin_subInv sessions cs c f sid h
    · rw [if_neg hv]
      exact h
  | set_offer v sid offer =>
    simp only [dispatch]
    by_cases hv : v = 1
    · rw [if_pos hv]
      exact stepSetOffer_subInv sessions cs c f sid offer h
    · rw [if_neg hv]
      exact h
  | set_answer v sid answer =>
    simp only [dispatch]
    by_cases hv : v = 1
    · rw [if_pos hv]
      exact stepSetAnswer_subInv sessions cs c f sid answer h
    · rw [if_neg hv]
      exact h
  | get_state v sid =>
    simp only [dispatch]
    by_cases hv : v = 1
    · rw [if_pos hv]
      rw [stepGetState_sessions]
      exact h
    · rw [if_neg hv]
      exact h

theorem connStepSmall_subInv (sessions : Sessions) (cs : ConnSt) (c : Nat) (f : Frame)
    (h : ∀ p ∈ sessions, p.2.clients.length ≤ MAX_CLIENTS_PER_SESSION) :
    ∀ p ∈ (connStepSmall sessions cs c f).2.2,
      p.2.clients.length ≤ MAX_CLIENTS_PER_SESSION := by
  unfold connStepSmall
  dsimp only
  by_cases hb : (if f.refill then 40 else cs.rate_budget) - 1 < 0
  · rw [if_pos hb]
    exact h
  rw [if_neg hb]
  cases hp : f.parsed with
  | none => exact h
  | some cmd =>
    dsimp only
    exact dispatch_subInv sessions _ c f cmd h

theorem connStep_subInv (sessions : Sessions) (cs : ConnSt) (c : Nat) (f : Frame)
    (h : ∀ p ∈ sessions, p.2.clients.length ≤ MAX_CLIENTS_PER_SESSION) :
    ∀ p ∈ (connStep sessions cs c f).sessions,
      p.2.clients.length ≤ MAX_CLIENTS_PER_SESSION := by
  unfold connStep
  by_cases h1 : f.isText = false
  · rw [if_pos h1]
    exact h
  rw [if_neg h1]
  by_cases h2 : MAX_WS_TEXT_BYTES < f.len
  · rw [if_pos h2]
    exact h
  rw [if_neg h2]
  dsimp only
  exact connStepSmall_subInv sessions cs c f h

theorem endConn_subInv (s : RState) (c : Nat) (g : Nat → Bool)
    (h : SubInv s) : SubInv (endConn s c g) := by
  unfold SubInv at h ⊢
  unfold endConn
  dsimp only
  cases hj : (lookupC s.conns c).bind (fun cs => cs.joined_sid) with
  | none => exact h
  | some sid =>
    dsimp only
    cases hl : lookupS s.sessions sid with
    | none => exact h
    | some entry =>
      dsimp only
      intro p hp
      rcases mem_insertA hp with he | hp'
      · subst he
        dsimp only
        exact le_trans (List.length_filter_le _ _) (h (sid, entry) (mem_of_lookupA hl))
      · exact h p hp'

theorem applyEvent_subInv (s : RState) (e : REvent) (h : SubInv s) :
    SubInv (applyEvent s e) := by
  cases e with
  | connect c =>
    unfold applyEvent
    dsimp only
    by_cases hc : (lookupC s.conns c).isSome = true
    · rw [if_pos hc]
      exact h
    · rw [if_neg hc]
      exact h
  | frame c f =>
    unfold applyEvent
    dsimp only
    cases hc : lookupC s.conns c with
    | none => exact h
    | some cs =>
      dsimp only
      by_cases hb : (connStep s.sessions cs c f).brk = true
      · rw [if_pos hb]
        exact endConn_subInv _ _ _ (connStep_subInv s.sessions cs c f h)
      · rw [if_neg hb]
        exact connStep_subInv s.sessions cs c f h
  | disconnect c g => exact endConn_subInv s c g h
  | purgeExpired now ttl =>
    intro p hp
    exact h p (List.mem_of_mem_filter hp)
  | purgeClosed g =>
    intro p hp
    obtain ⟨q, hq, rfl⟩ := List.mem_map.mp hp
    dsimp only
    exact le_trans (List.length_filter_le _ _) (h q hq)

theorem reach_subInv : ∀ s : RState, Reach s → SubInv s := by
  intro s h
  induction h with
  | init =>
    intro p hp
    simp [initRState] at hp
  | step s e h ih => exact applyEvent_subInv s e ih

theorem stepJoin_length (sessions : Sessions) (cs : ConnSt) (c : Nat) (f : Frame)
    (sid : List Char) (h : sessions.length ≤ MAX_SESSIONS) :
    (stepJoin sessions cs c f sid).2.2.length ≤ MAX_SESSIONS := by
  unfold stepJoin
  simp only [lookupS, insertS]
  by_cases hval : validate_sid sid = false
  · rw [if_pos hval]
    exact h
  rw [if_neg hval]
  by_cases hbusy : MAX_SESSIONS ≤ sessions.length ∧ ¬ containsS sessions sid = true
  · rw [if_pos hbusy]
    exact h
  rw [if_neg hbusy]
  cases hc : containsS sessions sid with
  | true =>
    have hlen1 : (insertA sessions sid ((lookupA sessions sid).getD (freshSess f.now))).length =
        sessions.length := length_insertA_contains _ _ _ hc
    by_cases hfull : MAX_CLIENTS_PER_SESSION ≤
        ((lookupA sessions sid).getD (freshSess f.now)).clients.length
    · rw [if_pos hfull]
      dsimp only
      rw [hlen1]
      exact h
    · rw [if_neg hfull]
      dsimp only
      have hc2 : containsA (insertA sessions sid
          ((lookupA sessions sid).getD (freshSess f.now))) sid = true :=
        containsA_insertA_self _ _ _
      rw [length_insertA_contains _ _ _ hc2, hlen1]
      exact h
  | false =>
    have hnc : lookupA sessions sid = (none : Option Sess) := by
      unfold containsS containsA at hc
      cases hl : lookupA sessions sid
      · rfl
      · rw [hl] at hc
        simp at hc
    have hlt : sessions.length < MAX_SESSIONS := by
      rcases Nat.lt_or_ge sessions.length MAX_SESSIONS with h' | h'
      · exact h'
      · exact absurd ⟨h', by simp [hc]⟩ hbusy
    have hlen1 : (insertA sessions sid ((lookupA sessions sid).getD (freshSess f.now))).length =
        sessions.length + 1 := length_insertA_absent _ _ _ hnc
    by_cases hfull : MAX_CLIENTS_PER_SESSION ≤
        ((lookupA sessions sid).getD (freshSess f.now)).clients.length
    · rw [if_pos hfull]
      dsimp only
      rw [hlen1]
      omega
    · rw [if_neg hfull]
      dsimp only
      have hc2 : containsA (insertA sessions sid
          ((lookupA sessions sid).getD (freshSess f.now))) sid = true :=
        containsA_insertA_self _ _ _
      rw [length_insertA_contains _ _ _ hc2, hlen1]
      omega

/-- C2 (amended): in every reachable relay state each session's subscriber
list has at most MAX_CLIENTS_PER_SESSION entries, and the join arm never grows
the sessions map past MAX_SESSIONS (a join of a fresh sid at capacity is
refused as busy); the session-count bound itself is not an invariant, because
set_offer and set_answer create the joined sid's session without any capacity
check (see the counterexample). -/
theorem relay_caps :
    (∀ s : RState, Reach s → SubInv s) ∧
    (∀ (sessions : Sessions) (cs : ConnSt) (c : Nat) (f : Frame) (sid : List Char),
      sessions.length ≤ MAX_SESSIONS →
      (stepJoin sessions cs c f sid).2.2.length ≤ MAX_SESSIONS) :=
  ⟨reach_subInv, stepJoin_length⟩

/-- Witness for relay_caps at the initial state and a concrete join. -/
theorem relay_caps_witness :
    SubInv initRState ∧
      (stepJoin [] initConnSt 0 (joinFrame 0) ['a']).2.2.length ≤ MAX_SESSIONS :=
  ⟨relay_caps.1 initRState Reach.init,
   relay_caps.2 [] initConnSt 0 (joinFrame 0) ['a'] (by decide)⟩

/-- Counterexample to C2 as stated: the total-session-count cap is not an
invariant of the reachable states. Connection 0 joins 10000 distinct sids,
then a join of a fresh valid sid is refused busy yet records joined_sid, and
the following set_offer for that sid creates an 10001-st session: a reachable
state violates the 10000-session bound. -/
theorem relay_caps_claim_counterexample :
    ¬ (∀ s : RState, Reach s →
        (∀ p ∈ s.sessions, p.2.clients.length ≤ MAX_CLIENTS_PER_SESSION) ∧
        s.sessions.length ≤ MAX_SESSIONS) := by
  intro hall
  have h2 := (hall overCapState overCap_reach).2
  rw [overCap_len] at h2
  exact Nat.not_succ_le_self _ h2

end Voxelle
